import Mathlib

/-!
# A shallow embedding of the mongolite wire codec, framer and dispatcher

This file embeds the MongoDB wire-protocol codec (`protocol` package:
`Decode`, `Encode` and their helpers), the connection framer
(`proxy.bufferNextRequest`) and the request dispatcher
(`emulator.MongoEmulator.HandleRequest` with its built-in command handlers)
of the mongolite repository, and proves properties of the embedding.

Conventions used throughout:

* Go byte slices and Go strings are both modelled as `List UInt8`
  (Go strings are byte strings).
* Go `int32`/`int64` values are modelled as `Int` together with explicit
  wrap-around (`% 2^32`, `% 2^64`) at the points where the code converts
  to and from bytes; Go `uint32` reads are modelled as `Nat`.
* The external BSON library (`gopkg.in/mgo.v2/bson`) is not part of the
  repository; it is modelled here restricted to the element types the
  development exercises (int32 0x10, int64 0x12, string 0x02, bool 0x08,
  datetime 0x09); `bson.M` is an unordered Go map modelled as an
  association list with insert-replaces semantics.
* Error diagnostics (message strings of decode errors) carry no semantic
  weight in the code apart from `io.EOF`-ness, which several loops branch
  on; decode errors are therefore modelled by their `io.EOF`-ness only.
-/

namespace Mongolite

/-- Byte strings: Go `[]byte` and Go `string` values. -/
abbrev Bytes := List UInt8

/-- ASCII view of a Lean string literal as a Go byte string. -/
def ascii (s : String) : Bytes := s.data.map (fun c => UInt8.ofNat c.toNat)

/-! ## Little-endian integer primitives (`encoding/binary`) -/

/-- Little-endian encoding of a `uint32` (the low 32 bits of `n`). -/
def u32le (n : Nat) : Bytes :=
  [UInt8.ofNat n, UInt8.ofNat (n / 256), UInt8.ofNat (n / 65536),
   UInt8.ofNat (n / 16777216)]

/-- Little-endian encoding of an `int32` (two's complement). -/
def i32le (i : Int) : Bytes := u32le ((i % (2 ^ 32 : Int)).toNat)

/-- Little-endian encoding of an `int64` (two's complement). -/
def i64le (i : Int) : Bytes :=
  let n := ((i % (2 ^ 64 : Int))).toNat
  [UInt8.ofNat n, UInt8.ofNat (n / 2 ^ 8), UInt8.ofNat (n / 2 ^ 16),
   UInt8.ofNat (n / 2 ^ 24), UInt8.ofNat (n / 2 ^ 32), UInt8.ofNat (n / 2 ^ 40),
   UInt8.ofNat (n / 2 ^ 48), UInt8.ofNat (n / 2 ^ 56)]

/--
Result of a decoding step.  Go reports errors through `error` values; the
only aspect of a decode error the code ever branches on is whether the
error chain contains `io.EOF` (`xerrors.Is(err, io.EOF)`), recorded here
in the `err` payload.  `panicked` models a Go runtime panic (the decoder
can panic, see `decodeKillCursorsOp`).
-/
inductive DR (α : Type) where
  | ok (a : α)
  | err (isEOF : Bool)
  | panicked
  deriving Repr, DecidableEq

namespace DR

/-- Propagate errors and panics, mirroring Go's early `return nil, err`. -/
def bind {α β : Type} : DR α → (α → DR β) → DR β
  | .ok a, f => f a
  | .err e, _ => .err e
  | .panicked, _ => .panicked

@[simp] theorem bind_ok {α β : Type} (a : α) (f : α → DR β) :
    bind (.ok a) f = f a := rfl

@[simp] theorem bind_err {α β : Type} (e : Bool) (f : α → DR β) :
    bind (.err e) f = .err e := rfl

def isOk {α : Type} : DR α → Bool
  | .ok _ => true
  | _ => false

@[simp] theorem isOk_ok {α : Type} (a : α) : (DR.ok a).isOk = true := rfl
@[simp] theorem isOk_err {α : Type} (e : Bool) : (DR.err e : DR α).isOk = false := rfl

end DR

/--
Read exactly one byte (`binary.Read` of a `uint8` from a `bytes.Reader`):
an empty stream yields `io.EOF`.
-/
def readU8 : Bytes → DR (UInt8 × Bytes)
  | [] => .err true
  | b :: rest => .ok (b, rest)

/--
Read a little-endian `uint32` (`binary.Read`, which uses `io.ReadFull`):
an empty stream yields `io.EOF`; a partial read yields
`io.ErrUnexpectedEOF` (not `io.EOF`).
-/
def readU32 : Bytes → DR (Nat × Bytes)
  | b0 :: b1 :: b2 :: b3 :: rest =>
      .ok (b0.toNat + 256 * (b1.toNat + 256 * (b2.toNat + 256 * b3.toNat)), rest)
  | [] => .err true
  | _ => .err false

/-- Read a little-endian `int32` (two's complement). -/
def readI32 (s : Bytes) : DR (Int × Bytes) :=
  (readU32 s).bind fun (u, rest) =>
    .ok (if u < 2 ^ 31 then (u : Int) else (u : Int) - 2 ^ 32, rest)

/-- Read a little-endian `int64` (two's complement). -/
def readI64 : Bytes → DR (Int × Bytes)
  | b0 :: b1 :: b2 :: b3 :: b4 :: b5 :: b6 :: b7 :: rest =>
      let u : Nat := b0.toNat + 2 ^ 8 * b1.toNat + 2 ^ 16 * b2.toNat +
        2 ^ 24 * b3.toNat + 2 ^ 32 * b4.toNat + 2 ^ 40 * b5.toNat +
        2 ^ 48 * b6.toNat + 2 ^ 56 * b7.toNat
      .ok (if u < 2 ^ 63 then (u : Int) else (u : Int) - 2 ^ 64, rest)
  | [] => .err true
  | _ => .err false

/-! ## Model of the external BSON library (`gopkg.in/mgo.v2/bson`)

The BSON codec is an external collaborator of the repository.  It is
modelled here restricted to flat element values of the kinds this
development exercises; `bson.D` is the ordered wire form, `bson.M` the
unordered Go-map view (keyed association list, insert replaces). -/

/-- A flat BSON element value as produced by the modelled `bson.Unmarshal`:
Go types `int` (BSON int32), `int64`, `string`, `bool`, `time.Time`. -/
inductive BVal where
  | vInt (i : Int)
  | vInt64 (i : Int)
  | vStr (s : Bytes)
  | vBool (b : Bool)
  | vTime (millis : Int)
  deriving Repr, DecidableEq

/-- Ordered BSON document (`bson.D`): wire order of `(name, value)` pairs. -/
abbrev BsonD := List (Bytes × BVal)

/-- A value stored in a `bson.M` map.  Beside plain element values, the
dispatcher stores `[]interface{}` document lists (OP_MSG document-sequence
injection), `[]int` and `[]string` (built-in command responses); a Go type
assertion such as `.([]interface{})` distinguishes these cases. -/
inductive MVal where
  | base (v : BVal)
  | docList (ds : List BsonD)
  | intList (xs : List Int)
  | strList (xs : List Bytes)
  deriving Repr, DecidableEq

/-- Unordered document view (`bson.M`): a Go map modelled as a keyed
association list; `mapInsert` replaces an existing binding in place. -/
abbrev BsonM := List (Bytes × MVal)

/-- `m[k] = v` on a Go map: replace the binding if the key is present,
otherwise append it. -/
def mapInsert (m : BsonM) (k : Bytes) (v : MVal) : BsonM :=
  match m with
  | [] => [(k, v)]
  | (k', v') :: t => if k' = k then (k, v) :: t else (k', v') :: mapInsert t k v

/-- `m[k]` lookup on a Go map. -/
def mLookup (m : BsonM) (k : Bytes) : Option MVal :=
  match m with
  | [] => none
  | (k', v') :: t => if k' = k then some v' else mLookup t k

/-- `delete(m, k)` on a Go map. -/
def mErase (m : BsonM) (k : Bytes) : BsonM :=
  match m with
  | [] => []
  | (k', v') :: t => if k' = k then t else (k', v') :: mErase t k

/-- `bson.D.Map()`: fold the ordered document into a map; on duplicate
names the later occurrence wins (Go map assignment). -/
def bsonDMap (d : BsonD) : BsonM :=
  d.foldl (fun m kv => mapInsert m kv.1 (.base kv.2)) []

/-- BSON element type byte for a flat value. -/
def btype : BVal → UInt8
  | .vInt _ => 0x10
  | .vInt64 _ => 0x12
  | .vStr _ => 0x02
  | .vBool _ => 0x08
  | .vTime _ => 0x09

/-- BSON encoding of a flat element value (without type byte and name). -/
def bvalBytes : BVal → Bytes
  | .vInt i => i32le i
  | .vInt64 i => i64le i
  | .vStr s => i32le (s.length + 1) ++ s ++ [0]
  | .vBool b => [if b then 1 else 0]
  | .vTime t => i64le t

/-- BSON element list of an ordered document (name/value pairs). -/
def belems : BsonD → Bytes
  | [] => []
  | (n, v) :: t => btype v :: (n ++ [0] ++ bvalBytes v ++ belems t)

/-- `bson.Marshal` of an ordered document: int32 total size (including the
size field and the trailing NUL), the elements, a NUL terminator. -/
def bsonMarshalD (d : BsonD) : Bytes :=
  let p := belems d
  u32le (p.length + 5) ++ p ++ [0]

/-- BSON bytes of a map value inside a marshalled `bson.M` document.
Lists marshal as BSON arrays (an embedded document with decimal keys). -/
def mvalBytes : MVal → Bytes
  | .base v => bvalBytes v
  | .docList ds =>
      let p := (ds.enum.map fun (i, d) =>
        (0x03 : UInt8) :: (ascii (toString i) ++ [0] ++ bsonMarshalD d)).flatten
      u32le (p.length + 5) ++ p ++ [0]
  | .intList xs =>
      let p := (xs.enum.map fun (i, x) =>
        (0x10 : UInt8) :: (ascii (toString i) ++ [0] ++ i32le x)).flatten
      u32le (p.length + 5) ++ p ++ [0]
  | .strList xs =>
      let p := (xs.enum.map fun (i, x) =>
        (0x02 : UInt8) :: (ascii (toString i) ++ [0] ++ i32le (x.length + 1) ++ x ++ [0])).flatten
      u32le (p.length + 5) ++ p ++ [0]

/-- BSON element type byte for a map value. -/
def mtype : MVal → UInt8
  | .base v => btype v
  | .docList _ => 0x04
  | .intList _ => 0x04
  | .strList _ => 0x04

/-- `bson.Marshal` of a `bson.M` document (the modelled map iterates in
list order; Go map iteration order is unspecified, and no property proved
here depends on the field order of an encoded map). -/
def bsonMarshalM (m : BsonM) : Bytes :=
  let p := (m.map fun (n, v) => mtype v :: (n ++ [0] ++ mvalBytes v)).flatten
  u32le (p.length + 5) ++ p ++ [0]

/-- Split a byte string at its first NUL: `(bytes before, bytes after)`. -/
def splitFirstNul : Bytes → Option (Bytes × Bytes)
  | [] => none
  | b :: t =>
      if b = 0 then some ([], t)
      else (splitFirstNul t).map fun p => (b :: p.1, p.2)

/-- Read one BSON element value of element type `t` (modelled subset). -/
def bReadVal (t : UInt8) (s : Bytes) : Option (BVal × Bytes) :=
  if t = 0x10 then
    match readI32 s with
    | .ok (i, r) => some (.vInt i, r)
    | _ => none
  else if t = 0x12 then
    match readI64 s with
    | .ok (i, r) => some (.vInt64 i, r)
    | _ => none
  else if t = 0x09 then
    match readI64 s with
    | .ok (i, r) => some (.vTime i, r)
    | _ => none
  else if t = 0x08 then
    match s with
    | 1 :: r => some (.vBool true, r)
    | 0 :: r => some (.vBool false, r)
    | _ => none
  else if t = 0x02 then
    match readI32 s with
    | .ok (len, r) =>
        if 1 ≤ len ∧ (len - 1).toNat + 1 ≤ r.length then
          let n := (len - 1).toNat
          match r.drop n with
          | 0 :: r2 => some (.vStr (r.take n), r2)
          | _ => none
        else none
    | _ => none
  else none

/-- Parse the element area of a BSON document (everything between the size
prefix and the end of the buffer); the area must end with the NUL
terminator.  The fuel argument bounds the recursion; every element consumes
at least one byte, so `length + 1` fuel always suffices. -/
def bParseElems : Nat → Bytes → Option BsonD
  | 0, _ => none
  | _ + 1, [] => none
  | fuel + 1, b :: rest =>
      if b = 0 then if rest = [] then some [] else none
      else
        match splitFirstNul rest with
        | none => none
        | some (name, rest2) =>
            match bReadVal b rest2 with
            | none => none
            | some (v, rest3) =>
                match bParseElems fuel rest3 with
                | none => none
                | some d => some ((name, v) :: d)

/-- Model of `bson.Unmarshal` into a `bson.D`: the buffer must carry its
own length in the size prefix (the callers in this code always hand the
codec a buffer of exactly that size). -/
def bsonUnmarshal (buf : Bytes) : Option BsonD :=
  match readI32 buf with
  | .ok (size, rest) =>
      if size = buf.length then bParseElems (rest.length + 1) rest else none
  | _ => none

/-! ## `protocol` package: decode primitives (`decode.go`) -/

/-- `decodeBSONDocument`: read an int32 size, reject sizes below 4, read
the remaining `size - 4` bytes in a single `Read` call (zero available
bytes surface `io.EOF`, a short read is a distinct error), re-prepend the
size and unmarshal. -/
def decodeBSONDocument (s : Bytes) : DR (BsonD × Bytes) :=
  (readI32 s).bind fun (docSize, r) =>
    if docSize < 4 then .err false
    else
      let rawDocSize := (docSize - 4).toNat
      if rawDocSize = 0 then .ok ([], r)
      else if r.length = 0 then .err true
      else if r.length < rawDocSize then .err false
      else
        match bsonUnmarshal (u32le docSize.toNat ++ r.take rawDocSize) with
        | some d => .ok (d, r.drop rawDocSize)
        | none => .err false

/-- Loop body of `decodeCString`: before each byte the running count is
checked against `maxLen` (`rem` is `maxLen` minus the bytes consumed so
far); an exhausted budget is the non-EOF "exceeded max allowed string
length" error, an exhausted stream surfaces the reader's `io.EOF`. -/
def decodeCStringAux : Bytes → Int → Bytes → DR (Bytes × Bytes)
  | s, rem, acc =>
      if rem ≤ 0 then .err false
      else
        match s with
        | [] => .err true
        | b :: t =>
            if b = 0 then .ok (acc, t)
            else decodeCStringAux t (rem - 1) (acc ++ [b])

/-- `decodeCString`: zero-terminated string of fewer than `maxLen` bytes. -/
def decodeCString (s : Bytes) (maxLen : Int) : DR (Bytes × Bytes) :=
  decodeCStringAux s maxLen []

/-- `NamespacedCollection`: a `database.collection` pair. -/
structure NamespacedCollection where
  database : Bytes
  collection : Bytes
  deriving Repr, DecidableEq

/-- Split a byte string at its first `'.'` (0x2E), as
`strings.SplitN(s, ".", 2)`; `none` when there is no dot. -/
def splitFirstDot : Bytes → Option (Bytes × Bytes)
  | [] => none
  | b :: t =>
      if b = 46 then some ([], t)
      else (splitFirstDot t).map fun p => (b :: p.1, p.2)

/-- `decodeNamespacedCollection`: read a cstring, split on the first dot,
reject a missing dot and empty halves. -/
def decodeNamespacedCollection (s : Bytes) (maxLen : Int) :
    DR (NamespacedCollection × Bytes) :=
  (decodeCString s maxLen).bind fun (cstring, rest) =>
    match splitFirstDot cstring with
    | none => .err false
    | some (db, col) =>
        if db = [] then .err false
        else if col = [] then .err false
        else .ok (⟨db, col⟩, rest)

/-- `RPCHeader`: the four little-endian int32 header fields. -/
structure RPCHeader where
  messageLength : Int
  requestID : Int
  responseTo : Int
  opcode : Int
  deriving Repr, DecidableEq

/-- `RPCHeader.PayloadLength`: request size excluding the 16-byte header. -/
def RPCHeader.PayloadLength (h : RPCHeader) : Int := h.messageLength - 16

/-- `decodeHeader`: read the four int32 header fields. -/
def decodeHeader (s : Bytes) : DR (RPCHeader × Bytes) :=
  (readI32 s).bind fun (len, r1) =>
  (readI32 r1).bind fun (reqID, r2) =>
  (readI32 r2).bind fun (respTo, r3) =>
  (readI32 r3).bind fun (opcode, r4) =>
  .ok (⟨len, reqID, respTo, opcode⟩, r4)

/-! ## `protocol` package: request model (`types.go`) -/

/-- `RequestType`: the semantic type tag carried by every request. -/
inductive RequestType where
  | update | insert | getMore | delete | killCursors
  | query | command | findAndUpdate | findAndDelete | unknown
  deriving Repr, DecidableEq

/-- `ReplyType`: the reply envelope a request expects (`None` is the Go
zero value and the default of omitted struct fields). -/
inductive ReplyType where
  | none | opReply | opMsg
  deriving Repr, DecidableEq

/-- `RequestInfo`: header, type tag and reply envelope shared by all
request variants. -/
structure RequestInfo where
  header : RPCHeader
  requestType : RequestType
  replyType : ReplyType
  deriving Repr, DecidableEq

/-- `UpdateTarget`: one update operation. -/
structure UpdateTarget where
  selector : BsonM
  update : BsonM
  arrayFilters : List BsonM
  flags : Nat
  deriving Repr, DecidableEq

/-- `DeleteTarget`: one delete operation. -/
structure DeleteTarget where
  selector : BsonM
  limit : Int
  deriving Repr, DecidableEq

structure UpdateRequest where
  info : RequestInfo
  collection : NamespacedCollection
  updates : List UpdateTarget
  deriving Repr, DecidableEq

structure InsertRequest where
  info : RequestInfo
  collection : NamespacedCollection
  flags : Nat
  inserts : List BsonM
  deriving Repr, DecidableEq

structure GetMoreRequest where
  info : RequestInfo
  collection : NamespacedCollection
  numToReturn : Int
  cursorID : Int
  deriving Repr, DecidableEq

structure DeleteRequest where
  info : RequestInfo
  collection : NamespacedCollection
  deletes : List DeleteTarget
  deriving Repr, DecidableEq

structure KillCursorsRequest where
  info : RequestInfo
  cursorIDs : List Int
  deriving Repr, DecidableEq

structure QueryRequest where
  info : RequestInfo
  collection : NamespacedCollection
  flags : Nat
  numToSkip : Int
  numToReturn : Int
  query : BsonM
  sort : BsonM
  fieldSelector : BsonM
  deriving Repr, DecidableEq

structure FindAndUpdateRequest where
  info : RequestInfo
  collection : NamespacedCollection
  query : BsonM
  sort : BsonM
  update : BsonM
  arrayFilters : List BsonM
  upsert : Bool
  returnUpdatedDoc : Bool
  fieldSelector : BsonM
  deriving Repr, DecidableEq

structure FindAndDeleteRequest where
  info : RequestInfo
  collection : NamespacedCollection
  query : BsonM
  sort : BsonM
  fieldSelector : BsonM
  deriving Repr, DecidableEq

structure CommandRequest where
  info : RequestInfo
  collection : NamespacedCollection
  command : Bytes
  args : BsonM
  deriving Repr, DecidableEq

structure UnknownRequest where
  info : RequestInfo
  payload : Bytes
  deriving Repr, DecidableEq

/-- `Request`: the closed tagged union over all request variants. -/
inductive Request where
  | update (r : UpdateRequest)
  | insert (r : InsertRequest)
  | getMore (r : GetMoreRequest)
  | delete (r : DeleteRequest)
  | killCursors (r : KillCursorsRequest)
  | query (r : QueryRequest)
  | findAndUpdate (r : FindAndUpdateRequest)
  | findAndDelete (r : FindAndDeleteRequest)
  | command (r : CommandRequest)
  | unknown (r : UnknownRequest)
  deriving Repr, DecidableEq

namespace Request

/-- The shared `RequestInfo` mixin of a request. -/
def info : Request → RequestInfo
  | .update r => r.info
  | .insert r => r.info
  | .getMore r => r.info
  | .delete r => r.info
  | .killCursors r => r.info
  | .query r => r.info
  | .findAndUpdate r => r.info
  | .findAndDelete r => r.info
  | .command r => r.info
  | .unknown r => r.info

/-- `Request.GetType`: the stored request-type tag. -/
def getType (r : Request) : RequestType := r.info.requestType

/-- `Request.GetReplyType`: the stored reply envelope tag. -/
def getReplyType (r : Request) : ReplyType := r.info.replyType

/-- `Request.RequestID`: the header's request id. -/
def requestID (r : Request) : Int := r.info.header.requestID

end Request

/-! ## `protocol` package: command sub-decoders (`commands.go`)

The command sub-decoders registered in `cmdDecoder` take the header, the
already-resolved namespace, the argument map and the reply envelope chosen
by the calling opcode decoder.  The file holding their current definitions
is not among the provided sources (only `cmdDecoder`'s registration and
earlier revisions of the functions are); they are modelled from the spec
(§4.2) on top of those earlier revisions.  Go type assertions against
`bson.D` values (embedded documents) can never succeed in the modelled
BSON subset, which has no embedded-document values; those branches keep
their Go zero values. -/

/-- Modelled from the spec: `decodeInsertCommand` (current revision absent
from the sources).  `documents` must be a `[]interface{}` document list;
`ordered == false` sets the `ContinueOnError` flag; the request inherits
the caller's envelope and has type `Insert`. -/
def decodeInsertCommand (hdr : RPCHeader) (nsCol : NamespacedCollection)
    (cmdArgs : BsonM) (rt : ReplyType) : DR Request :=
  match mLookup cmdArgs (ascii "documents") with
  | some (.docList ds) =>
      let flags : Nat :=
        match mLookup cmdArgs (ascii "ordered") with
        | some (.base (.vBool false)) => 1
        | _ => 0
      .ok (.insert ⟨⟨hdr, .insert, rt⟩, nsCol, flags, ds.map bsonDMap⟩)
  | _ => .err false

/-- One update object of an `update` command (`{q, u, upsert?, multi?}`
plus top-level `arrayFilters` attached to every element). -/
def updateTargetOfDoc (cmdArgs : BsonM) (d : BsonD) : UpdateTarget :=
  let m := bsonDMap d
  let flags : Nat :=
    (match mLookup m (ascii "upsert") with
     | some (.base (.vBool true)) => 1
     | _ => 0) +
    (match mLookup m (ascii "multi") with
     | some (.base (.vBool true)) => 2
     | _ => 0)
  let filters : List BsonM :=
    match mLookup cmdArgs (ascii "arrayFilters") with
    | some (.docList fs) => fs.map bsonDMap
    | _ => []
  ⟨[], [], filters, flags⟩

/-- Modelled from the spec: `decodeUpdateCommand` (current revision absent
from the sources). -/
def decodeUpdateCommand (hdr : RPCHeader) (nsCol : NamespacedCollection)
    (cmdArgs : BsonM) (rt : ReplyType) : DR Request :=
  match mLookup cmdArgs (ascii "updates") with
  | some (.docList ds) =>
      .ok (.update ⟨⟨hdr, .update, rt⟩, nsCol, ds.map (updateTargetOfDoc cmdArgs)⟩)
  | _ => .err false

/-- Modelled from the spec: `decodeDeleteCommand` (current revision absent
from the sources).  `deletes` is a sequence of `{q, limit?}` objects. -/
def decodeDeleteCommand (hdr : RPCHeader) (nsCol : NamespacedCollection)
    (cmdArgs : BsonM) (rt : ReplyType) : DR Request :=
  match mLookup cmdArgs (ascii "deletes") with
  | some (.docList ds) =>
      let targets := ds.map fun d =>
        let m := bsonDMap d
        let limit : Int :=
          match mLookup m (ascii "limit") with
          | some (.base (.vInt i)) => i
          | _ => 0
        (⟨[], limit⟩ : DeleteTarget)
      .ok (.delete ⟨⟨hdr, .delete, rt⟩, nsCol, targets⟩)
  | _ => .err false

/-- Modelled from the spec: `decodeFindCommand` (current revision absent
from the sources).  `skip`/`limit` map to `NumToSkip`/`NumToReturn`. -/
def decodeFindCommand (hdr : RPCHeader) (nsCol : NamespacedCollection)
    (cmdArgs : BsonM) (rt : ReplyType) : DR Request :=
  let numToSkip : Int :=
    match mLookup cmdArgs (ascii "skip") with
    | some (.base (.vInt i)) => (i % 2 ^ 32 + 2 ^ 31) % 2 ^ 32 - 2 ^ 31
    | _ => 0
  let numToReturn : Int :=
    match mLookup cmdArgs (ascii "limit") with
    | some (.base (.vInt i)) => (i % 2 ^ 32 + 2 ^ 31) % 2 ^ 32 - 2 ^ 31
    | _ => 0
  .ok (.query ⟨⟨hdr, .query, rt⟩, nsCol, 0, numToSkip, numToReturn, [], [], []⟩)

/-- Modelled from the spec: `decodeFindAndModifyCommand` (current revision
absent from the sources).  `remove == true` yields `FindAndDelete`;
otherwise `update` must be a document (never satisfiable in the modelled
flat BSON subset, so that branch errors as Go does on a missing update). -/
def decodeFindAndModifyCommand (hdr : RPCHeader) (nsCol : NamespacedCollection)
    (cmdArgs : BsonM) (rt : ReplyType) : DR Request :=
  if mLookup cmdArgs (ascii "remove") = some (.base (.vBool true)) then
    .ok (.findAndDelete ⟨⟨hdr, .findAndDelete, rt⟩, nsCol, [], [], []⟩)
  else
    .err false

/-- The `cmdDecoder` registry: command name to sub-decoder. -/
def cmdDecoderLookup (name : Bytes) :
    Option (RPCHeader → NamespacedCollection → BsonM → ReplyType → DR Request) :=
  if name = ascii "insert" then some decodeInsertCommand
  else if name = ascii "update" then some decodeUpdateCommand
  else if name = ascii "delete" then some decodeDeleteCommand
  else if name = ascii "find" then some decodeFindCommand
  else if name = ascii "findAndModify" then some decodeFindAndModifyCommand
  else none

/-! ## `protocol` package: opcode decoders (`decode.go`) -/

/-- `decodeUpdateOp` (OP_UPDATE 2001): reserved int32, namespace, flags
u32, selector document, update document; no reply envelope. -/
def decodeUpdateOp (hdr : RPCHeader) (s : Bytes) : DR Request :=
  (readI32 s).bind fun (_, r1) =>
  (decodeNamespacedCollection r1 (hdr.PayloadLength - 4)).bind fun (nsCol, r2) =>
  (readU32 r2).bind fun (flags, r3) =>
  (decodeBSONDocument r3).bind fun (selectorDoc, r4) =>
  (decodeBSONDocument r4).bind fun (updateDoc, _) =>
  .ok (.update ⟨⟨hdr, .update, .none⟩, nsCol,
    [⟨bsonDMap selectorDoc, bsonDMap updateDoc, [], flags⟩]⟩)

/-- Document loop of `decodeInsertOp`: read documents until the payload is
exhausted; an error chain containing `io.EOF` ends the loop, anything else
is fatal.  Fuel bounds the recursion (every document consumes at least
four bytes, so `length + 1` always suffices). -/
def insertDocsLoop : Nat → Bytes → List BsonM → DR (List BsonM)
  | 0, _, _ => .err false
  | fuel + 1, s, acc =>
      match decodeBSONDocument s with
      | .ok (d, rest) => insertDocsLoop fuel rest (acc ++ [bsonDMap d])
      | .err true => .ok acc
      | .err false => .err false
      | .panicked => .panicked

/-- `decodeInsertOp` (OP_INSERT 2002): flags u32, namespace, documents
until EOF; no reply envelope. -/
def decodeInsertOp (hdr : RPCHeader) (s : Bytes) : DR Request :=
  (readU32 s).bind fun (flags, r1) =>
  (decodeNamespacedCollection r1 (hdr.PayloadLength - 4)).bind fun (nsCol, r2) =>
  (insertDocsLoop (r2.length + 1) r2 []).bind fun docs =>
  .ok (.insert ⟨⟨hdr, .insert, .none⟩, nsCol, flags, docs⟩)

/-- `decodeGetMoreOp` (OP_GET_MORE 2005): reserved int32, namespace,
numberToReturn int32, cursorID int64; replies use OP_REPLY. -/
def decodeGetMoreOp (hdr : RPCHeader) (s : Bytes) : DR Request :=
  (readI32 s).bind fun (_, r1) =>
  (decodeNamespacedCollection r1 (hdr.PayloadLength - 4)).bind fun (nsCol, r2) =>
  (readI32 r2).bind fun (numToReturn, r3) =>
  (readI64 r3).bind fun (cursorID, _) =>
  .ok (.getMore ⟨⟨hdr, .getMore, .opReply⟩, nsCol, numToReturn, cursorID⟩)

/-- `decodeDeleteOp` (OP_DELETE 2006): reserved int32, namespace, flags
int32 (bit 0 means `limit = 1`), selector document; no reply envelope. -/
def decodeDeleteOp (hdr : RPCHeader) (s : Bytes) : DR Request :=
  (readI32 s).bind fun (_, r1) =>
  (decodeNamespacedCollection r1 (hdr.PayloadLength - 4)).bind fun (nsCol, r2) =>
  (readI32 r2).bind fun (flags, r3) =>
  (decodeBSONDocument r3).bind fun (queryDoc, _) =>
  let limit : Int := if flags % 2 = 1 then 1 else 0
  .ok (.delete ⟨⟨hdr, .delete, .none⟩, nsCol, [⟨bsonDMap queryDoc, limit⟩]⟩)

/-- Cursor-id loop of `decodeKillCursorsOp`: read `n` int64 values. -/
def killIdsLoop : Nat → Bytes → List Int → DR (List Int)
  | 0, _, acc => .ok acc
  | n + 1, s, acc =>
      (readI64 s).bind fun (c, r) => killIdsLoop n r (acc ++ [c])

/-- `decodeKillCursorsOp` (OP_KILL_CURSORS 2007): reserved int32,
numberOfCursorIDs int32, that many int64 cursor ids.  The cursor-id count
is used unchecked as `make([]int64, numCursors)`, which panics in Go when
the count is negative. -/
def decodeKillCursorsOp (hdr : RPCHeader) (s : Bytes) : DR Request :=
  (readI32 s).bind fun (_, r1) =>
  (readI32 r1).bind fun (numCursors, r2) =>
  if numCursors < 0 then .panicked
  else
    (killIdsLoop numCursors.toNat r2 []).bind fun ids =>
    .ok (.killCursors ⟨⟨hdr, .killCursors, .none⟩, ids⟩)

/-- `decodeQueryOp` (OP_QUERY 2004): flags u32, namespace, skip and limit
int32, query document, optional field-selector document (EOF acceptable).
A `$cmd` collection turns the query document into a command: its first
field is the command name (a string value overrides the collection name),
the rest are arguments, and a matching command sub-decoder is tried before
falling back to a generic `Command` request; replies use OP_REPLY. -/
def decodeQueryOp (hdr : RPCHeader) (s : Bytes) : DR Request :=
  (readU32 s).bind fun (flags, r1) =>
  (decodeNamespacedCollection r1 (hdr.PayloadLength - 4)).bind fun (nsCol, r2) =>
  (readI32 r2).bind fun (numToSkip, r3) =>
  (readI32 r3).bind fun (numToReturn, r4) =>
  (decodeBSONDocument r4).bind fun (queryDoc, r5) =>
  (match decodeBSONDocument r5 with
   | .ok (d, r) => .ok (d, r)
   | .err true => .ok (([] : BsonD), r5)
   | .err false => .err false
   | .panicked => .panicked : DR (BsonD × Bytes)).bind fun (fieldSelectorDoc, _) =>
  if nsCol.collection ≠ ascii "$cmd" then
    .ok (.query ⟨⟨hdr, .query, .opReply⟩, nsCol, flags, numToSkip, numToReturn,
      bsonDMap queryDoc, [], bsonDMap fieldSelectorDoc⟩)
  else
    match queryDoc with
    | [] => .err false
    | (cmdName, v0) :: _ =>
        let nsCol' : NamespacedCollection :=
          match v0 with
          | .vStr colName => ⟨nsCol.database, colName⟩
          | _ => nsCol
        let cmdArgs := mErase (bsonDMap queryDoc) cmdName
        match cmdDecoderLookup cmdName with
        | some dec => dec hdr nsCol' cmdArgs .opReply
        | none =>
            .ok (.command ⟨⟨hdr, .command, .opReply⟩, nsCol', cmdName, cmdArgs⟩)

/-- One parsed kind-1 (document sequence) section of an OP_MSG. -/
structure DocSeqSection where
  path : Bytes
  docList : List BsonD
  deriving Repr, DecidableEq

/-- Document loop of a kind-1 section: read documents from the
size-limited section reader until it is exhausted. -/
def msgSeqDocsLoop : Nat → Bytes → List BsonD → DR (List BsonD)
  | 0, _, _ => .err false
  | fuel + 1, s, acc =>
      match decodeBSONDocument s with
      | .ok (d, rest) => msgSeqDocsLoop fuel rest (acc ++ [d])
      | .err true => .ok acc
      | .err false => .err false
      | .panicked => .panicked

/-- Section loop of `decodeMsgOp`: read a kind byte until the payload is
exhausted; kind 0 replaces the body section (an empty body document is
malformed), kind 1 reads a size-limited document sequence, any other kind
is an error. -/
def msgSectionsLoop : Nat → Bytes → BsonD → List DocSeqSection →
    DR (BsonD × List DocSeqSection)
  | 0, _, _, _ => .err false
  | fuel + 1, s, body, seqs =>
      match readU8 s with
      | .err true => .ok (body, seqs)
      | .err e => .err e
      | .panicked => .panicked
      | .ok (kind, rest) =>
          if kind = 0 then
            match decodeBSONDocument rest with
            | .ok (cmdDoc, r) =>
                if cmdDoc = [] then .err false
                else msgSectionsLoop fuel r cmdDoc seqs
            | .err e => .err e
            | .panicked => .panicked
          else if kind = 1 then
            match readU32 rest with
            | .ok (size, r) =>
                let lim := if 4 ≤ size then size - 4 else 0
                match decodeCString (r.take lim) (size : Int) with
                | .ok (path, r2) =>
                    (match msgSeqDocsLoop (r2.length + 1) r2 [] with
                     | .ok docs =>
                         msgSectionsLoop fuel (r.drop lim) body
                           (seqs ++ [⟨path, docs⟩])
                     | .err e => .err e
                     | .panicked => .panicked)
                | .err e => .err e
                | .panicked => .panicked
            | .err e => .err e
            | .panicked => .panicked
          else .err false

/-- `decodeMsgOp` (OP_MSG 2013): flagBits u32, sections until the payload
is exhausted, then (flag bit 0) a trailing crc32 read; exactly one body
section must have been seen (the last kind-0 section read wins) and at
most one document sequence, whose path must not contain a dot and whose
documents are injected as `args[path]`; `$db` (string) in the body becomes
the namespace database; a matching command sub-decoder is tried before
falling back to a generic `Command` request; replies use OP_MSG. -/
def decodeMsgOp (hdr : RPCHeader) (s : Bytes) : DR Request :=
  (readU32 s).bind fun (flags, r1) =>
  (msgSectionsLoop (r1.length + 1) r1 [] []).bind fun (body, seqs) =>
  (if flags % 2 = 1 then
    (readU32 ([] : Bytes)).bind fun (_, _) => .ok ()
   else .ok ()).bind fun _ =>
  if body = [] then .err false
  else if seqs.length > 1 then .err false
  else
    match body with
    | [] => .err false
    | (cmdName, v0) :: _ =>
        let col : Bytes := match v0 with | .vStr c => c | _ => []
        let args0 := mErase (bsonDMap body) cmdName
        let dbAndArgs : Bytes × BsonM :=
          match mLookup args0 (ascii "$db") with
          | some (.base (.vStr dbName)) =>
              if dbName ≠ [] then (dbName, mErase args0 (ascii "$db"))
              else ([], args0)
          | _ => ([], args0)
        let nsCol : NamespacedCollection := ⟨dbAndArgs.1, col⟩
        (match seqs with
         | [sec] =>
             if sec.path.contains 46 then .err false
             else .ok (mapInsert dbAndArgs.2 sec.path (.docList sec.docList))
         | _ => .ok dbAndArgs.2 : DR BsonM).bind fun cmdArgs =>
        match cmdDecoderLookup cmdName with
        | some dec => dec hdr nsCol cmdArgs .opMsg
        | none =>
            .ok (.command ⟨⟨hdr, .command, .opMsg⟩, nsCol, cmdName, cmdArgs⟩)

/-- `decodeUnknownOp`: preserve the remaining payload. -/
def decodeUnknownOp (hdr : RPCHeader) (s : Bytes) : DR Request :=
  .ok (.unknown ⟨⟨hdr, .unknown, .none⟩, s⟩)

/-- `Decode`: read the header and dispatch on the opcode via the
`opDecoder` table (unknown opcodes fall back to `decodeUnknownOp`). -/
def Decode (req : Bytes) : DR Request :=
  (decodeHeader req).bind fun (hdr, rest) =>
  if hdr.opcode = 2001 then decodeUpdateOp hdr rest
  else if hdr.opcode = 2002 then decodeInsertOp hdr rest
  else if hdr.opcode = 2004 then decodeQueryOp hdr rest
  else if hdr.opcode = 2005 then decodeGetMoreOp hdr rest
  else if hdr.opcode = 2006 then decodeDeleteOp hdr rest
  else if hdr.opcode = 2007 then decodeKillCursorsOp hdr rest
  else if hdr.opcode = 2013 then decodeMsgOp hdr rest
  else decodeUnknownOp hdr rest

/-! ## `protocol` package: responses and `Encode` (`encode.go`) -/

/-- `Response`: flags (bit 0 `CursorNotFound`, bit 1 `QueryError`),
cursor id, starting offset and the reply documents. -/
structure Response where
  flags : Nat
  cursorID : Int
  startingFrom : Int
  documents : List BsonM
  deriving Repr, DecidableEq

/-- The zero-value `protocol.Response{}`. -/
def emptyResponse : Response := ⟨0, 0, 0, []⟩

/-- The lower-case `header` struct used by the encoder. -/
structure EncHeader where
  messageLength : Int
  requestID : Int
  responseTo : Int
  opcode : Int

/-- `writeHeaderTo`: the four header fields, little-endian int32. -/
def writeHeaderTo (hdr : EncHeader) : Bytes :=
  i32le hdr.messageLength ++ i32le hdr.requestID ++
  i32le hdr.responseTo ++ i32le hdr.opcode

/-- `writeOpReplyTo`: flags u32, cursorID i64, startingFrom i32, document
count i32, then each document marshalled as BSON. -/
def writeOpReplyTo (r : Response) : Bytes :=
  u32le r.flags ++ i64le r.cursorID ++ i32le r.startingFrom ++
  i32le r.documents.length ++ (r.documents.map bsonMarshalM).flatten

/-- `writeOpMsgTo`: flagBits u32 (always zero), a single kind-0 body
section; more than one document is an error. -/
def writeOpMsgTo (r : Response) : Except String Bytes :=
  if r.documents.length > 1 then
    .error "OP_MSG payloads with multiple documents are not supported"
  else
    .ok (u32le 0 ++ [0] ++ (r.documents.map bsonMarshalM).flatten)

/-- `Encode`: emit nothing for `ReplyTypeNone`; otherwise write a header
(`requestID` stays at its zero value, `responseTo` echoes the request id,
opcode 1 for OP_REPLY or 2013 for OP_MSG), the envelope body, and patch
the first four bytes with the total length as a uint32. -/
def Encode (r : Response) (reqID : Int) (replyType : ReplyType) :
    Except String Bytes :=
  match replyType with
  | .none => .ok []
  | .opReply =>
      let res := writeHeaderTo ⟨0, 0, reqID, 1⟩ ++ writeOpReplyTo r
      .ok (u32le res.length ++ res.drop 4)
  | .opMsg =>
      match writeOpMsgTo r with
      | .error e => .error e
      | .ok body =>
          let res := writeHeaderTo ⟨0, 0, reqID, 2013⟩ ++ body
          .ok (u32le res.length ++ res.drop 4)

/-! ## `proxy` package: the framer (`server.go`) -/

/-- Failure modes of `bufferNextRequest` (each terminates the
connection). -/
inductive FramerError where
  | headerRead | badLength | payloadRead
  deriving Repr, DecidableEq

/-- `bufferNextRequest`: buffer 16 header bytes from the stream, read the
leading uint32 `messageLength`, reject lengths below 16 and read the
remaining `messageLength - 16` bytes; returns the framed request and the
unconsumed stream. -/
def bufferNextRequest (s : Bytes) : Except FramerError (Bytes × Bytes) :=
  if s.length < 16 then .error .headerRead
  else
    match readU32 s with
    | .ok (reqLen, _) =>
        if reqLen < 16 then .error .badLength
        else if s.length < reqLen then .error .payloadRead
        else .ok (s.take reqLen, s.drop reqLen)
    | _ => .error .headerRead

/-! ## `emulator` package: errors, command handlers, dispatcher -/

/-- Emulator-level errors.  `wrap` models `xerrors.Errorf("...: %w", err)`
(the rendered prefix is kept; `xerrors.Is` looks through it), `server` is
`protocol.ServerError{Code, Msg}`. -/
inductive EmuErr where
  | unsupported
  | invalidCursor
  | server (code : Int) (msg : Bytes)
  | wrap (ctx : Bytes) (inner : EmuErr)
  deriving Repr, DecidableEq

/-- `xerrors.Is(err, ErrUnsupportedRequest)`. -/
def isUnsupportedErr : EmuErr → Bool
  | .unsupported => true
  | .wrap _ e => isUnsupportedErr e
  | _ => false

/-- `xerrors.Is(err, ErrInvalidCursor)`. -/
def isInvalidCursorErr : EmuErr → Bool
  | .invalidCursor => true
  | .wrap _ e => isInvalidCursorErr e
  | _ => false

/-- `protocol.ErrorCode.String()`. -/
def errCodeName (c : Int) : Bytes :=
  if c = 13 then ascii "Unauthorized"
  else if c = 76 then ascii "NoReplicationEnabled"
  else ascii "Unknown"

/-- The `Error()` rendering of an emulator error (`ServerError.Error()`
is `"%s (code %d): %s"`). -/
def errString : EmuErr → Bytes
  | .unsupported => ascii "unsupported request"
  | .invalidCursor => ascii "invalid cursor"
  | .server c m =>
      errCodeName c ++ ascii " (code " ++ ascii (toString c) ++ ascii "): " ++ m
  | .wrap ctx e => ctx ++ ascii ": " ++ errString e

/-- `toErrorResponse`: `CursorNotFound` for an `ErrInvalidCursor` chain,
otherwise `QueryError`; an OP_REPLY error document is `{$err, ok:0}`,
an OP_MSG error document is `{errmsg, ok:0}` with `code`/`codeName`
added when the error value is (directly) a `ServerError`. -/
def toErrorResponse (err : EmuErr) (replyType : ReplyType) : Response :=
  let flags : Nat := if isInvalidCursorErr err then 1 else 2
  let errDoc : BsonM :=
    if replyType = .opReply then
      [(ascii "$err", .base (.vStr (errString err)))]
    else
      let base : BsonM := [(ascii "errmsg", .base (.vStr (errString err)))]
      match err with
      | .server c m =>
          mapInsert
            (mapInsert (mapInsert base (ascii "errmsg") (.base (.vStr m)))
              (ascii "code") (.base (.vInt c)))
            (ascii "codeName") (.base (.vStr (errCodeName c)))
      | _ => base
  ⟨flags, 0, 0, [mapInsert errDoc (ascii "ok") (.base (.vInt 0))]⟩

/-- The `emulator.Backend` capability. -/
structure Backend where
  name : Bytes
  handle : Bytes → Request → Response × Option EmuErr
  removeClient : Bytes → Option EmuErr

/-- The `dummy` backend: every request is unsupported. -/
def dummyBackend : Backend :=
  ⟨ascii "dummy", fun _ _ => (emptyResponse, some .unsupported), fun _ => none⟩

/-- A command handler (`cmdHandlerFn`). -/
abbrev CmdHandlerFn := Backend → Bytes → CommandRequest → Response × Option EmuErr

/-- Models `time.Now().UTC()`: the wall clock is an external input; no
property proved here depends on its value. -/
def modelNow : Int := 0

def handleIsMaster : CmdHandlerFn := fun _ clientID _ =>
  (⟨0, 0, 0, [[
    (ascii "ok", .base (.vInt 1)),
    (ascii "ismaster", .base (.vBool true)),
    (ascii "secondary", .base (.vBool false)),
    (ascii "readOnly", .base (.vBool false)),
    (ascii "maxBsonObjectSize", .base (.vInt 16777216)),
    (ascii "maxMessageSizeBytes", .base (.vInt 48000000)),
    (ascii "maxWriteBatchSize", .base (.vInt 10000)),
    (ascii "localTime", .base (.vTime modelNow)),
    (ascii "connectionId", .base (.vStr clientID)),
    (ascii "minWireVersion", .base (.vInt 1)),
    (ascii "maxWireVersion", .base (.vInt 6))]]⟩, none)

def handleWhatsMyURI : CmdHandlerFn := fun _ clientID _ =>
  (⟨0, 0, 0, [[(ascii "ok", .base (.vInt 1)),
               (ascii "you", .base (.vStr clientID))]]⟩, none)

def handleBuildInfo : CmdHandlerFn := fun _ _ _ =>
  (⟨0, 0, 0, [[(ascii "ok", .base (.vInt 1)),
               (ascii "version", .base (.vStr (ascii "3.6.8"))),
               (ascii "versionArray", .intList [3, 6, 8, 0]),
               (ascii "maxBsonObjectSize", .base (.vInt 16777216))]]⟩, none)

/-- `handleReplSetGetStatus`: `Unauthorized` outside the admin database,
otherwise `NoReplicationEnabled`. -/
def handleReplSetGetStatus : CmdHandlerFn := fun _ _ req =>
  if req.collection.database ≠ ascii "admin" then
    (emptyResponse, some (.server 13
      (ascii "replSetGetStatus may only be run against the admin database.")))
  else
    (emptyResponse, some (.server 76 (ascii "not running with --replSet")))

/-- The banner lines of `handleGetLog` (the Go source splits the banner
string on newlines after substituting the backend name with `%q`). -/
def getLogLines (name : Bytes) : List Bytes :=
  [ascii "",
   ascii "_  _ ____ _  _ ____ ____ _    _ ___ ____ ",
   ascii "|\\/| |  | |\\ | | __ |  | |    |  |  |___ ",
   ascii "|  | |__| | \\| |__] |__| |___ |  |  |___ ",
   ascii "",
   ascii "Greetings from your friendly neighborhood mongolite server.",
   ascii "Serving incoming client request using the \"" ++ name ++ ascii "\" backend.",
   ascii ""]

def handleGetLog : CmdHandlerFn := fun b _ _ =>
  (⟨0, 0, 0, [[(ascii "ok", .base (.vInt 1)),
               (ascii "log", .strList (getLogLines b.name))]]⟩, none)

/-- ASCII upper-casing of a byte string (`strings.ToUpper`; the command
names used here are plain ASCII). -/
def toUpperAscii (s : Bytes) : Bytes :=
  s.map fun b => if 97 ≤ b.toNat ∧ b.toNat ≤ 122 then b - 32 else b

/-- The command registry built by `registerCommandHandlers`, with
upper-cased keys for case-insensitive lookup. -/
def cmdHandlersLookup (nameUpper : Bytes) : Option CmdHandlerFn :=
  if nameUpper = ascii "ISMASTER" then some handleIsMaster
  else if nameUpper = ascii "WHATSMYURI" then some handleWhatsMyURI
  else if nameUpper = ascii "BUILDINFO" then some handleBuildInfo
  else if nameUpper = ascii "REPLSETGETSTATUS" then some handleReplSetGetStatus
  else if nameUpper = ascii "GETLOG" then some handleGetLog
  else none

/-- The per-client `lastError` map (`map[string]error`; a stored `nil`
error is distinct from an absent entry). -/
abbrev LastErrorMap := List (Bytes × Option EmuErr)

/-- Go map assignment on `lastError`. -/
def leInsert (m : LastErrorMap) (k : Bytes) (v : Option EmuErr) : LastErrorMap :=
  match m with
  | [] => [(k, v)]
  | (k', v') :: t => if k' = k then (k, v) :: t else (k', v') :: leInsert t k v

/-- Go map lookup on `lastError` (`none` when the key is absent). -/
def leLookup (m : LastErrorMap) (k : Bytes) : Option (Option EmuErr) :=
  match m with
  | [] => none
  | (k', v') :: t => if k' = k then some v' else leLookup t k

/-- `delete` on `lastError`. -/
def leErase (m : LastErrorMap) (k : Bytes) : LastErrorMap :=
  match m with
  | [] => []
  | (k', v') :: t => if k' = k then t else (k', v') :: leErase t k

/-- `MongoEmulator`: backend plus per-client `lastError` state (the
command-handler registry is fixed at construction and modelled by
`cmdHandlersLookup`). -/
structure MongoEmulator where
  b : Backend
  lastError : LastErrorMap

/-- Errors returned by `MongoEmulator.HandleRequest` (each terminates the
connection).  `decodePanicked` keeps the model total where the Go decoder
would panic instead of returning. -/
inductive HandlerErr where
  | decodeFailed (isEOF : Bool)
  | decodePanicked
  | encodeFailed (msg : String)
  deriving Repr, DecidableEq

/-- `maybeProcessClientCommand`: look the command up case-insensitively in
the registry; an unregistered command yields a wrapped
`ErrUnsupportedRequest` keyed by the command name. -/
def maybeProcessClientCommand (emu : MongoEmulator) (clientID : Bytes)
    (req : CommandRequest) : Response × Option EmuErr :=
  match cmdHandlersLookup (toUpperAscii req.command) with
  | some h => h emu.b clientID req
  | none =>
      (emptyResponse,
       some (.wrap (ascii "command \"" ++ req.command ++ ascii "\"") .unsupported))

/-- `MongoEmulator.process`: ask the backend; when it reports
`ErrUnsupportedRequest` and the request is a command, try the built-in
command handlers.  (Go casts the request to `*CommandRequest` here; for
every request `Decode` produces, the type tag and the variant agree, so
the fall-through arm of the cast is unreachable.) -/
def MongoEmulator.process (emu : MongoEmulator) (clientID : Bytes)
    (req : Request) : Response × Option EmuErr :=
  let (res, err) := emu.b.handle clientID req
  if (match err with | some e => isUnsupportedErr e | none => false) then
    if req.getType = .command then
      match req with
      | .command c => maybeProcessClientCommand emu clientID c
      | _ => (res, err)
    else (res, err)
  else (res, err)

/-- `MongoEmulator.HandleRequest`: decode the frame (failure is returned
to the connection loop), process it, buffer an error in the per-client
`lastError`, return silently for `ReplyTypeNone`, otherwise encode either
the response or the error reply; the `lastError` entry is reset to `nil`
on every path that reaches the reply stage.  Returns the updated emulator,
the bytes written to the client and the returned error. -/
def MongoEmulator.HandleRequest (emu : MongoEmulator) (clientID : Bytes)
    (reqData : Bytes) : MongoEmulator × Bytes × Option HandlerErr :=
  match Decode reqData with
  | .err e => (emu, [], some (.decodeFailed e))
  | .panicked => (emu, [], some .decodePanicked)
  | .ok req =>
      let (res, errOpt) := emu.process clientID req
      match errOpt with
      | some err =>
          let emu1 := { emu with lastError := leInsert emu.lastError clientID (some err) }
          if req.getReplyType = .none then (emu1, [], none)
          else
            let res' := toErrorResponse err req.getReplyType
            let emu2 := { emu1 with lastError := leInsert emu1.lastError clientID none }
            match Encode res' req.requestID req.getReplyType with
            | .ok out => (emu2, out, none)
            | .error m => (emu2, [], some (.encodeFailed m))
      | none =>
          let emu2 := { emu with lastError := leInsert emu.lastError clientID none }
          if req.getReplyType = .none then (emu2, [], none)
          else
            match Encode res req.requestID req.getReplyType with
            | .ok out => (emu2, out, none)
            | .error m => (emu2, [], some (.encodeFailed m))

/-- `MongoEmulator.RemoveClient`: purge the `lastError` entry and invoke
the backend's removal hook. -/
def MongoEmulator.RemoveClient (emu : MongoEmulator) (clientID : Bytes) :
    MongoEmulator × Option EmuErr :=
  ({ emu with lastError := leErase emu.lastError clientID },
   emu.b.removeClient clientID)

/-! ## Frame builders

Synthesized wire frames used to state properties of `Decode` ("encode a
request" exists only for tests; frames are supplied synthesized). -/

/-- A full wire frame: header with computed `messageLength`, then the
payload. -/
def mkFrame (rid rto opcode : Int) (payload : Bytes) : Bytes :=
  i32le (16 + payload.length) ++ i32le rid ++ i32le rto ++ i32le opcode ++ payload

/-- A `database.collection` namespace byte string. -/
def nsBytes (db col : Bytes) : Bytes := db ++ [46] ++ col

/-- An OP_QUERY frame (no optional field selector). -/
def mkQueryFrame (rid : Int) (flags : Nat) (ns : Bytes) (skip ret : Int)
    (qdoc : BsonD) : Bytes :=
  mkFrame rid 0 2004 (u32le flags ++ (ns ++ (0 :: (i32le skip ++ (i32le ret ++
    bsonMarshalD qdoc)))))

/-- An OP_INSERT frame. -/
def mkInsertFrame (rid : Int) (flags : Nat) (ns : Bytes) (docs : List BsonD) :
    Bytes :=
  mkFrame rid 0 2002 (u32le flags ++ (ns ++ (0 :: (docs.map bsonMarshalD).flatten)))

/-- An OP_GET_MORE frame. -/
def mkGetMoreFrame (rid : Int) (ns : Bytes) (numToReturn cursorID : Int) : Bytes :=
  mkFrame rid 0 2005 (i32le 0 ++ (ns ++ (0 :: (i32le numToReturn ++
    i64le cursorID))))

/-- An OP_KILL_CURSORS frame with an explicit cursor-count field. -/
def mkKillCursorsFrame (rid n : Int) (rest : Bytes) : Bytes :=
  mkFrame rid 0 2007 (i32le 0 ++ i32le n ++ rest)

/-- One OP_MSG section to build. -/
inductive MsgSection where
  | body (d : BsonD)
  | seq (path : Bytes) (docs : List BsonD)
  deriving Repr, DecidableEq

/-- Wire bytes of one OP_MSG section. -/
def msgSectionBytes : MsgSection → Bytes
  | .body d => 0 :: bsonMarshalD d
  | .seq p docs =>
      let content := p ++ [0] ++ (docs.map bsonMarshalD).flatten
      1 :: (u32le (content.length + 4) ++ content)

/-- An OP_MSG frame; `extra` holds any trailing bytes (e.g. a crc32). -/
def mkMsgFrame (rid : Int) (flagBits : Nat) (ss : List MsgSection)
    (extra : Bytes) : Bytes :=
  mkFrame rid 0 2013 (u32le flagBits ++ ((ss.map msgSectionBytes).flatten ++ extra))

/-! ## Wellformedness predicates and statement helpers -/

/-- The value of a little-endian int32 round trip: reduce into the signed
32-bit range (two's complement). -/
def wrap32 (i : Int) : Int :=
  if i % 2 ^ 32 < 2 ^ 31 then i % 2 ^ 32 else i % 2 ^ 32 - 2 ^ 32

/-- The value of a little-endian int64 round trip. -/
def wrap64 (i : Int) : Int :=
  if i % 2 ^ 64 < 2 ^ 63 then i % 2 ^ 64 else i % 2 ^ 64 - 2 ^ 64

/-- A BSON value whose byte encoding round-trips (integers within their
wire range, strings with a representable length prefix). -/
def bvalOk : BVal → Bool
  | .vInt i => decide (-2 ^ 31 ≤ i ∧ i < 2 ^ 31)
  | .vInt64 i => decide (-2 ^ 63 ≤ i ∧ i < 2 ^ 63)
  | .vStr s => decide ((s.length : Int) + 1 < 2 ^ 31)
  | .vBool _ => true
  | .vTime t => decide (-2 ^ 63 ≤ t ∧ t < 2 ^ 63)

/-- A usable BSON element name: NUL-free. -/
def bnameOk (n : Bytes) : Bool := n.all (· ≠ 0)

/-- A document whose marshalled form decodes back to itself: all names
NUL-free, all values in range, total size within int32 range. -/
def docOk (d : BsonD) : Bool :=
  d.all (fun kv => bnameOk kv.1 && bvalOk kv.2) &&
  decide (((belems d).length : Int) + 5 < 2 ^ 31)

/-- Wellformedness of a built OP_MSG section: body documents must be
nonempty and decodable, sequence paths NUL-free with decodable documents
and an in-range size field. -/
def msgSectionOk : MsgSection → Bool
  | .body d => docOk d && decide (d ≠ [])
  | .seq p docs =>
      bnameOk p && docs.all docOk &&
      decide (((p.length + 1 + (docs.map bsonMarshalD).flatten.length : Nat) : Int) + 4 < 2 ^ 31)

/-- Number of body (kind 0) sections among built sections. -/
def countBody (ss : List MsgSection) : Nat :=
  ss.countP fun s => match s with | .body _ => true | _ => false

/-- Number of document-sequence (kind 1) sections among built sections. -/
def countSeq (ss : List MsgSection) : Nat :=
  ss.countP fun s => match s with | .seq _ _ => true | _ => false

/-- All document-sequence paths among built sections are dot-free. -/
def seqPathsDotFree (ss : List MsgSection) : Bool :=
  ss.all fun s => match s with | .seq p _ => !p.contains 46 | _ => true

/-- The command name of the last kind-0 section, if any (the decoder's
"last body section wins" rule). -/
def lastBodyDoc (ss : List MsgSection) : BsonD :=
  ss.foldl (fun acc s => match s with | .body d => d | _ => acc) []

/-- The document-sequence sections among built sections, in order. -/
def builtSeqs (ss : List MsgSection) : List DocSeqSection :=
  ss.filterMap fun s =>
    match s with
    | .seq p ds => some ⟨p, ds⟩
    | _ => none

/-- The first element name of an ordered document (empty for an empty
document). -/
def bdHeadName : BsonD → Bytes
  | [] => []
  | (n, _) :: _ => n

/-- The semantic request type(s) the spec assigns to each recognized
command name of the `cmdDecoder` table. -/
def cmdSemanticType (cmd : Bytes) (t : RequestType) : Prop :=
  (cmd = ascii "insert" → t = .insert) ∧
  (cmd = ascii "update" → t = .update) ∧
  (cmd = ascii "delete" → t = .delete) ∧
  (cmd = ascii "find" → t = .query) ∧
  (cmd = ascii "findAndModify" → t = .findAndUpdate ∨ t = .findAndDelete)

/-- The names registered in the `cmdDecoder` table. -/
def isRegisteredCmd (cmd : Bytes) : Bool :=
  cmd = ascii "insert" || cmd = ascii "update" || cmd = ascii "delete" ||
  cmd = ascii "find" || cmd = ascii "findAndModify"

/-- The request type of a successful decode, if any. -/
def decodedType : DR Request → Option RequestType
  | .ok r => some r.getType
  | _ => none

/-- The opcode the encoder uses for a reply envelope (`Encode`'s switch:
1 for OP_REPLY, 2013 for OP_MSG; `None` writes nothing). -/
def envOpcode : ReplyType → Int
  | .none => 0
  | .opReply => 1
  | .opMsg => 2013

/-- The `messageLength` a frame declares: its leading uint32. -/
def declaredLen (s : Bytes) : Option Nat :=
  match readU32 s with
  | .ok (n, _) => some n
  | _ => none

/-- The `requestId` header field of a parsed header, if parsing
succeeded. -/
def requestIDOfHeader : DR (RPCHeader × Bytes) → Option Int
  | .ok (h, _) => some h.requestID
  | _ => none

/-! ## Concrete frames and requests used to settle the claims -/

/-- A stream whose single frame declares `messageLength = 48_000_001`. -/
def c6OversizedFrame : Bytes :=
  i32le 48000001 ++ (i32le 0 ++ (i32le 0 ++ (i32le 0 ++
    List.replicate 47999985 (0 : UInt8))))

/-- An OP_INSERT frame (`db.c`, no documents, request id 3). -/
def c1InsFrame : Bytes := mkInsertFrame 3 0 (nsBytes (ascii "db") (ascii "c")) []

/-- The request `Decode` yields for `c1InsFrame`. -/
def c1InsReq : Request :=
  .insert ⟨⟨⟨25, 3, 0, 2002⟩, .insert, .none⟩, ⟨ascii "db", ascii "c"⟩, 0, []⟩

/-- An OP_GET_MORE frame (`a.b`, cursor 42, request id 9). -/
def c1GmFrame : Bytes := mkGetMoreFrame 9 (nsBytes (ascii "a") (ascii "b")) 5 42

/-- The request `Decode` yields for `c1GmFrame`. -/
def c1GmReq : Request :=
  .getMore ⟨⟨⟨36, 9, 0, 2005⟩, .getMore, .opReply⟩, ⟨ascii "a", ascii "b"⟩, 5, 42⟩

/-- An OP_INSERT frame whose processing fails (no-reply envelope). -/
def c7InsFrame : Bytes := mkInsertFrame 7 0 (nsBytes (ascii "db") (ascii "c")) []

/-- A `getLastError` command tunnelled through OP_QUERY (`db.$cmd`). -/
def c7GleFrame : Bytes :=
  mkQueryFrame 11 0 (nsBytes (ascii "db") (ascii "$cmd")) 0 (-1)
    [(ascii "getLastError", .vInt 1)]

/-- An OP_MSG frame with checksum bit 0 set and a trailing crc32. -/
def c3MsgWithCrc : Bytes :=
  mkMsgFrame 5 1 [.body [(ascii "ping", .vInt 1)]] [255, 0, 0, 0]

/-- The identical OP_MSG frame without the checksum bit and crc32. -/
def c3MsgNoCrc : Bytes := mkMsgFrame 5 0 [.body [(ascii "ping", .vInt 1)]] []

/-- An OP_QUERY frame whose namespace `a.b.$cmd` ends in `.$cmd` but whose
collection component (split at the first dot) is `b.$cmd`, with an
`insert` command document. -/
def c4SuffixFrame : Bytes :=
  mkQueryFrame 4 0 (nsBytes (ascii "a") (ascii "b.$cmd")) 0 1
    [(ascii "insert", .vStr (ascii "c"))]

/-- An OP_MSG frame with two kind-0 body sections. -/
def c5TwoBodyFrame : Bytes :=
  mkMsgFrame 5 0 [.body [(ascii "x", .vInt 1)], .body [(ascii "y", .vInt 2)]] []

/-! ## Byte-level lemmas -/

theorem toNat_ofNat8 (m : Nat) : (UInt8.ofNat m).toNat = m % 256 := rfl

theorem readU32_u32le (n : Nat) (rest : Bytes) :
    readU32 (u32le n ++ rest) = .ok (n % 2 ^ 32, rest) := by
  show readU32 (_ :: _ :: _ :: _ :: rest) = _
  simp only [readU32, toNat_ofNat8, DR.ok.injEq, Prod.mk.injEq, and_true]
  omega

theorem readI32_u32le (n : Nat) (rest : Bytes) :
    readI32 (u32le n ++ rest) = .ok (wrap32 n, rest) := by
  unfold readI32
  rw [readU32_u32le, DR.bind_ok]
  simp only [wrap32, DR.ok.injEq, Prod.mk.injEq, and_true]
  split_ifs <;> omega

theorem i32le_eq_u32le (i : Int) : i32le i = u32le ((i % 2 ^ 32).toNat) := rfl

theorem readI32_i32le (i : Int) (rest : Bytes) :
    readI32 (i32le i ++ rest) = .ok (wrap32 i, rest) := by
  rw [i32le_eq_u32le, readI32_u32le]
  have h0 : 0 ≤ i % 2 ^ 32 := Int.emod_nonneg _ (by norm_num)
  have h1 : i % 2 ^ 32 < 2 ^ 32 := Int.emod_lt_of_pos _ (by norm_num)
  simp only [wrap32, DR.ok.injEq, Prod.mk.injEq, and_true]
  split_ifs <;> omega

theorem wrap32_eq_self {i : Int} (h1 : -2 ^ 31 ≤ i) (h2 : i < 2 ^ 31) :
    wrap32 i = i := by
  unfold wrap32; omega

theorem wrap32_ofNat_eq_self {n : Nat} (h : (n : Int) < 2 ^ 31) :
    wrap32 (n : Int) = n := by
  unfold wrap32; omega

theorem u32le_length (n : Nat) : (u32le n).length = 4 := rfl

theorem i32le_length (i : Int) : (i32le i).length = 4 := rfl

theorem i64le_length (i : Int) : (i64le i).length = 8 := rfl

theorem drop4_u32le (n : Nat) (rest : Bytes) : (u32le n ++ rest).drop 4 = rest := rfl

theorem drop4_i32le (i : Int) (rest : Bytes) : (i32le i ++ rest).drop 4 = rest := rfl

theorem readI64_i64le (i : Int) (rest : Bytes) :
    readI64 (i64le i ++ rest) = .ok (wrap64 i, rest) := by
  have h0 : 0 ≤ i % 2 ^ 64 := Int.emod_nonneg _ (by norm_num)
  have h1 : i % 2 ^ 64 < 2 ^ 64 := Int.emod_lt_of_pos _ (by norm_num)
  show readI64 (_ :: _ :: _ :: _ :: _ :: _ :: _ :: _ :: rest) = _
  simp only [readI64, toNat_ofNat8, DR.ok.injEq, Prod.mk.injEq, and_true, wrap64]
  have h2 : (((i % 2 ^ 64).toNat : Nat) : Int) = i % 2 ^ 64 := Int.toNat_of_nonneg h0
  set m := (i % 2 ^ 64).toNat with hm
  have h3 : m < 2 ^ 64 := by omega
  have h4 : m % 256 + 2 ^ 8 * (m / 2 ^ 8 % 256) + 2 ^ 16 * (m / 2 ^ 16 % 256) +
      2 ^ 24 * (m / 2 ^ 24 % 256) + 2 ^ 32 * (m / 2 ^ 32 % 256) +
      2 ^ 40 * (m / 2 ^ 40 % 256) + 2 ^ 48 * (m / 2 ^ 48 % 256) +
      2 ^ 56 * (m / 2 ^ 56 % 256) = m := by omega
  rw [h4]
  split
  · rw [if_pos] <;> omega
  · rw [if_neg] <;> omega

/-! ## Header lemmas -/

theorem decodeHeader_u32le_first (a : Nat) (b c d : Int) (rest : Bytes) :
    decodeHeader (u32le a ++ (i32le b ++ (i32le c ++ (i32le d ++ rest)))) =
      .ok (⟨wrap32 a, wrap32 b, wrap32 c, wrap32 d⟩, rest) := by
  unfold decodeHeader
  simp only [readI32_u32le, readI32_i32le, DR.bind_ok]

theorem decodeHeader_i32les (a b c d : Int) (rest : Bytes) :
    decodeHeader (i32le a ++ (i32le b ++ (i32le c ++ (i32le d ++ rest)))) =
      .ok (⟨wrap32 a, wrap32 b, wrap32 c, wrap32 d⟩, rest) := by
  unfold decodeHeader
  simp only [readI32_i32le, DR.bind_ok]

theorem decodeHeader_mkFrame (rid rto opc : Int) (p : Bytes) :
    decodeHeader (mkFrame rid rto opc p) =
      .ok (⟨wrap32 (16 + p.length), wrap32 rid, wrap32 rto, wrap32 opc⟩, p) := by
  unfold mkFrame
  rw [List.append_assoc, List.append_assoc, List.append_assoc]
  exact decodeHeader_i32les _ _ _ _ _

theorem drop16_header (a : Nat) (b c d : Int) (rest : Bytes) :
    (u32le a ++ (i32le b ++ (i32le c ++ (i32le d ++ rest)))).drop 16 = rest := rfl

theorem header_prefix_length (a : Nat) (b c d : Int) (rest : Bytes) :
    (u32le a ++ (i32le b ++ (i32le c ++ (i32le d ++ rest)))).length =
      16 + rest.length := by
  simp only [u32le, i32le, List.length_append, List.length_cons, List.length_nil]
  omega

/-- The byte sequence `Encode` emits for a non-`None` envelope, after the
length patch, in fully right-nested form. -/
theorem encode_patch_shape (rid opc : Int) (body : Bytes) :
    u32le (writeHeaderTo ⟨0, 0, rid, opc⟩ ++ body).length ++
      (writeHeaderTo ⟨0, 0, rid, opc⟩ ++ body).drop 4 =
    u32le (16 + body.length) ++ (i32le 0 ++ (i32le rid ++ (i32le opc ++ body))) := by
  unfold writeHeaderTo
  congr 1
  congr 1
  simp only [List.length_append, i32le_length]

/-! ## Claim C2 -/

/--
Claim C2: for every Response `resp`, request id `rid` and reply envelope
`env` (OpReply or OpMsg — `None` writes nothing), the first 16 bytes of
the byte sequence written by `Encode(resp, rid, env)` parse as a wire
header whose `responseTo` equals `rid`, whose opcode equals the
envelope's opcode (1 for OpReply, 2013 for OpMsg), and whose
`messageLength` field carries the total number of bytes emitted,
including the header, as its value reduced to the signed 32-bit range
(which is the byte count itself whenever the reply is shorter than
`2^31` bytes; the second conjunct makes that explicit).
-/
theorem C2_encode_header_roundtrip (r : Response) (rid : Int) (env : ReplyType)
    (bs : Bytes) (henv : env ≠ .none)
    (hrid : -2 ^ 31 ≤ rid ∧ rid < 2 ^ 31)
    (h : Encode r rid env = .ok bs) :
    decodeHeader bs =
      .ok (⟨wrap32 (bs.length : Int), 0, rid, envOpcode env⟩, bs.drop 16) ∧
    ((bs.length : Int) < 2 ^ 31 → wrap32 (bs.length : Int) = (bs.length : Int)) := by
  have hz : wrap32 (0 : Int) = 0 := wrap32_eq_self (by norm_num) (by norm_num)
  have hr : wrap32 rid = rid := wrap32_eq_self hrid.1 hrid.2
  cases env with
  | none => exact absurd rfl henv
  | opReply =>
      simp only [Encode, Except.ok.injEq] at h
      subst h
      rw [encode_patch_shape]
      refine ⟨?_, ?_⟩
      · rw [decodeHeader_u32le_first, drop16_header, header_prefix_length, hz, hr,
          wrap32_eq_self (i := 1) (by norm_num) (by norm_num)]
        rfl
      · rw [header_prefix_length]
        exact fun hlt => wrap32_ofNat_eq_self hlt
  | opMsg =>
      rcases hm : writeOpMsgTo r with e | body
      · simp only [Encode, hm] at h
        exact Except.noConfusion h
      · simp only [Encode, hm, Except.ok.injEq] at h
        subst h
        rw [encode_patch_shape]
        refine ⟨?_, ?_⟩
        · rw [decodeHeader_u32le_first, drop16_header, header_prefix_length, hz, hr,
            wrap32_eq_self (i := 2013) (by norm_num) (by norm_num)]
          rfl
        · rw [header_prefix_length]
          exact fun hlt => wrap32_ofNat_eq_self hlt

/-- Witness for C2 at a concrete response, request id and envelope. -/
theorem C2_encode_header_roundtrip_witness :
    decodeHeader [41, 0, 0, 0, 0, 0, 0, 0, 5, 0, 0, 0, 1, 0, 0, 0, 0, 0, 0, 0,
        0, 0, 0, 0, 0, 0, 0, 0, 0, 0, 0, 0, 1, 0, 0, 0, 5, 0, 0, 0, 0] =
      .ok (⟨wrap32 ((41 : Nat) : Int), 0, 5, envOpcode .opReply⟩,
        ([41, 0, 0, 0, 0, 0, 0, 0, 5, 0, 0, 0, 1, 0, 0, 0, 0, 0, 0, 0,
          0, 0, 0, 0, 0, 0, 0, 0, 0, 0, 0, 0, 1, 0, 0, 0, 5, 0, 0, 0, 0] : Bytes).drop 16) ∧
      (((41 : Nat) : Int) < 2 ^ 31 → wrap32 ((41 : Nat) : Int) = ((41 : Nat) : Int)) :=
  C2_encode_header_roundtrip ⟨0, 0, 0, [[]]⟩ 5 .opReply
    [41, 0, 0, 0, 0, 0, 0, 0, 5, 0, 0, 0, 1, 0, 0, 0, 0, 0, 0, 0,
     0, 0, 0, 0, 0, 0, 0, 0, 0, 0, 0, 0, 1, 0, 0, 0, 5, 0, 0, 0, 0]
    (by decide) (by decide) rfl

/-! ## Claim C10 -/

/--
Claim C10: every wire reply produced by `Encode`, for both the OpReply
and the OpMsg envelope, carries `requestId = 0` in its header; only the
`responseTo` field echoes the client's request id, regardless of the
response content.
-/
theorem C10_encode_requestID_zero (r : Response) (rid : Int) (env : ReplyType)
    (bs : Bytes) (henv : env ≠ .none) (h : Encode r rid env = .ok bs) :
    requestIDOfHeader (decodeHeader bs) = some 0 := by
  have hz : wrap32 (0 : Int) = 0 := wrap32_eq_self (by norm_num) (by norm_num)
  cases env with
  | none => exact absurd rfl henv
  | opReply =>
      simp only [Encode, Except.ok.injEq] at h
      subst h
      rw [encode_patch_shape, decodeHeader_u32le_first]
      simp [requestIDOfHeader, hz]
  | opMsg =>
      rcases hm : writeOpMsgTo r with e | body
      · simp only [Encode, hm] at h
        exact Except.noConfusion h
      · simp only [Encode, hm, Except.ok.injEq] at h
        subst h
        rw [encode_patch_shape, decodeHeader_u32le_first]
        simp [requestIDOfHeader, hz]

/-- Witness for C10 at a concrete response encoded with the OpMsg
envelope. -/
theorem C10_encode_requestID_zero_witness :
    requestIDOfHeader (decodeHeader [26, 0, 0, 0, 0, 0, 0, 0, 9, 0, 0, 0,
        221, 7, 0, 0, 0, 0, 0, 0, 0, 5, 0, 0, 0, 0]) = some 0 :=
  C10_encode_requestID_zero ⟨0, 0, 0, [[]]⟩ 9 .opMsg _ (by decide) rfl

/-! ## Claim C9 -/

/--
Claim C9: for every well-framed OP_KILL_CURSORS request whose
`numberOfCursorIDs` int32 field is negative, `Decode` does not return an
error value but panics when allocating the cursor-id slice
(`make([]int64, numCursors)` with a negative length); `Decode` is
therefore not total over byte slices with opcode 2007.
-/
theorem C9_killCursors_negative_count_panics (rid n : Int) (rest : Bytes)
    (hn : -2 ^ 31 ≤ n) (hneg : n < 0) :
    Decode (mkKillCursorsFrame rid n rest) = .panicked := by
  have hop : wrap32 (2007 : Int) = 2007 :=
    wrap32_eq_self (by norm_num) (by norm_num)
  have hz : wrap32 (0 : Int) = 0 := wrap32_eq_self (by norm_num) (by norm_num)
  have hwn : wrap32 n = n := wrap32_eq_self hn (by omega)
  unfold mkKillCursorsFrame Decode
  rw [decodeHeader_mkFrame, DR.bind_ok, hop]
  norm_num
  unfold decodeKillCursorsOp
  simp only [readI32_i32le, DR.bind_ok, hwn]
  rw [if_pos hneg]

/-- Witness for C9: a concrete OP_KILL_CURSORS frame declaring `-1`
cursor ids makes `Decode` panic. -/
theorem C9_killCursors_negative_count_panics_witness :
    Decode (mkKillCursorsFrame 3 (-1) []) = .panicked :=
  C9_killCursors_negative_count_panics 3 (-1) [] (by norm_num) (by norm_num)

/-! ## Claim C6 -/

/--
Claim C6, as amended: every frame the framer accepts satisfies
`messageLength ≥ 16` and equals its declared `messageLength` in size (the
accepted frame is exactly the declared prefix of the stream); the framer
checks no upper bound (see the counterexample for the dropped
`≤ 48_000_000` half of the original claim).
-/
theorem C6_framer_lower_bound (s frame rest : Bytes)
    (h : bufferNextRequest s = .ok (frame, rest)) :
    16 ≤ frame.length ∧ declaredLen frame = some frame.length ∧
      s = frame ++ rest := by
  unfold bufferNextRequest at h
  by_cases h16 : s.length < 16
  · rw [if_pos h16] at h
    exact Except.noConfusion h
  rw [if_neg h16] at h
  rcases s with _ | ⟨b0, _ | ⟨b1, _ | ⟨b2, _ | ⟨b3, t⟩⟩⟩⟩ <;> simp at h16
  simp only [readU32] at h
  set v : Nat := b0.toNat + 256 * (b1.toNat + 256 * (b2.toNat + 256 * b3.toNat))
    with hv
  by_cases hv16 : v < 16
  · rw [if_pos hv16] at h
    exact Except.noConfusion h
  rw [if_neg hv16] at h
  by_cases hlen : (b0 :: b1 :: b2 :: b3 :: t).length < v
  · rw [if_pos hlen] at h
    exact Except.noConfusion h
  rw [if_neg hlen] at h
  simp only [Except.ok.injEq, Prod.mk.injEq] at h
  obtain ⟨hframe, hrest⟩ := h
  subst hframe
  subst hrest
  have hlt : ((b0 :: b1 :: b2 :: b3 :: t).take v).length = v := by
    rw [List.length_take]
    omega
  refine ⟨by omega, ?_, (List.take_append_drop v _).symm⟩
  have hsplit : (b0 :: b1 :: b2 :: b3 :: t).take v =
      b0 :: b1 :: b2 :: b3 :: t.take (v - 4) := by
    rw [show v = (v - 4) + 1 + 1 + 1 + 1 by omega]
    simp [List.take_succ_cons]
  rw [hsplit] at hlt ⊢
  simp only [declaredLen, readU32, hlt]

/-- Witness for C6: a well-formed 16-byte frame is accepted and satisfies
the bounds. -/
theorem C6_framer_lower_bound_witness :
    16 ≤ ((16 : UInt8) :: List.replicate 15 (0 : UInt8)).length ∧
    declaredLen ((16 : UInt8) :: List.replicate 15 (0 : UInt8)) =
      some ((16 : UInt8) :: List.replicate 15 (0 : UInt8)).length ∧
    (16 : UInt8) :: List.replicate 15 (0 : UInt8) =
      ((16 : UInt8) :: List.replicate 15 (0 : UInt8)) ++ [] :=
  C6_framer_lower_bound _ _ _ rfl

/-- Counterexample for C6: a frame declaring `messageLength = 48_000_001`
(above the claimed 48,000,000 cap) is accepted by the framer, so the
upper bound of the claim is not enforced. -/
theorem C6_framer_no_upper_bound_counterexample :
    bufferNextRequest c6OversizedFrame = .ok (c6OversizedFrame, []) ∧
    declaredLen c6OversizedFrame = some 48000001 := by
  have hu : i32le 48000001 = u32le 48000001 := by
    rw [i32le]
    norm_num
    rfl
  have hlen : c6OversizedFrame.length = 48000001 := by
    rw [c6OversizedFrame]
    rw [List.length_append, List.length_append, List.length_append,
      List.length_append, List.length_replicate, i32le_length]
    norm_num [i32le_length]
  have hread : readU32 c6OversizedFrame = .ok (48000001, i32le 0 ++ (i32le 0 ++
      (i32le 0 ++ List.replicate 47999985 (0 : UInt8)))) := by
    rw [c6OversizedFrame, hu, readU32_u32le]
    norm_num
  constructor
  · unfold bufferNextRequest
    rw [if_neg (by omega)]
    simp only [hread]
    rw [if_neg (by norm_num), if_neg (by omega)]
    rw [show (48000001 : Nat) = c6OversizedFrame.length from hlen.symm,
      List.take_length, List.drop_length]
  · rw [declaredLen, hread]

/-! ## Dispatcher lemmas -/

theorem leLookup_leInsert (m : LastErrorMap) (k : Bytes) (v : Option EmuErr) :
    leLookup (leInsert m k v) k = some v := by
  induction m with
  | nil => simp [leInsert, leLookup]
  | cons hd t ih =>
      by_cases h : hd.1 = k
      · simp [leInsert, leLookup, h]
      · simp [leInsert, leLookup, h, ih]

/-- An error response always holds exactly one document, so encoding it
succeeds for either reply envelope. -/
theorem encode_toErrorResponse_ok (err : EmuErr) (rid : Int) (rt : ReplyType)
    (hrt : rt ≠ .none) :
    ∃ bs, Encode (toErrorResponse err rt) rid rt = .ok bs := by
  have hdocs : (toErrorResponse err rt).documents.length = 1 := by
    unfold toErrorResponse
    rfl
  cases rt with
  | none => exact absurd rfl hrt
  | opReply => exact ⟨_, rfl⟩
  | opMsg =>
      simp only [Encode, writeOpMsgTo]
      rw [if_neg (by omega)]
      exact ⟨_, rfl⟩

/-! ## Claim C8 -/

/--
Claim C8: the built-in `replSetGetStatus` handler never returns a success
response: outside the `admin` database it fails with
`ServerError{13 (Unauthorized), "replSetGetStatus may only be run against
the admin database."}`, otherwise with `ServerError{76
(NoReplicationEnabled), "not running with --replSet"}`; and for the OpMsg
envelope the error reply document carries `errmsg`, `ok: 0`, the integer
`code` and its `codeName` string.
-/
theorem C8_replSetGetStatus_always_fails (b : Backend) (cid : Bytes)
    (req : CommandRequest) :
    handleReplSetGetStatus b cid req =
      (emptyResponse,
        some (if req.collection.database = ascii "admin" then
          EmuErr.server 76 (ascii "not running with --replSet")
        else
          EmuErr.server 13
            (ascii "replSetGetStatus may only be run against the admin database."))) ∧
    toErrorResponse
        (.server 13
          (ascii "replSetGetStatus may only be run against the admin database."))
        .opMsg =
      ⟨2, 0, 0, [[(ascii "errmsg", .base (.vStr
          (ascii "replSetGetStatus may only be run against the admin database."))),
        (ascii "code", .base (.vInt 13)),
        (ascii "codeName", .base (.vStr (ascii "Unauthorized"))),
        (ascii "ok", .base (.vInt 0))]]⟩ ∧
    toErrorResponse (.server 76 (ascii "not running with --replSet")) .opMsg =
      ⟨2, 0, 0, [[(ascii "errmsg", .base (.vStr (ascii "not running with --replSet"))),
        (ascii "code", .base (.vInt 76)),
        (ascii "codeName", .base (.vStr (ascii "NoReplicationEnabled"))),
        (ascii "ok", .base (.vInt 0))]]⟩ := by
  refine ⟨?_, by decide, by decide⟩
  unfold handleReplSetGetStatus
  by_cases hdb : req.collection.database = ascii "admin"
  · simp [hdb]
  · simp [hdb]

/-! ## Claim C1 -/

/--
Claim C1, as amended: for every client and every decodable framed request
whose processing returns an error, the dispatcher stores the error in the
per-client `lastError` and (for a `None` reply envelope) returns success
without writing a reply, the error staying buffered; for any other
envelope an error reply is encoded and written and the `lastError` entry
is then reset to a `nil` entry — it does not retain the error.
-/
theorem C1_error_buffering (emu : MongoEmulator) (cid data : Bytes)
    (req : Request) (res : Response) (err : EmuErr)
    (hdec : Decode data = .ok req)
    (hproc : emu.process cid req = (res, some err)) :
    if req.getReplyType = .none then
      leLookup (emu.HandleRequest cid data).1.lastError cid = some (some err) ∧
      (emu.HandleRequest cid data).2.1 = [] ∧
      (emu.HandleRequest cid data).2.2 = none
    else
      leLookup (emu.HandleRequest cid data).1.lastError cid = some none ∧
      Encode (toErrorResponse err req.getReplyType) req.requestID
        req.getReplyType = .ok (emu.HandleRequest cid data).2.1 ∧
      (emu.HandleRequest cid data).2.2 = none := by
  by_cases hrt : req.getReplyType = .none
  · rw [if_pos hrt]
    have hH : emu.HandleRequest cid data =
        ({ emu with lastError := leInsert emu.lastError cid (some err) }, [],
          none) := by
      simp only [MongoEmulator.HandleRequest, hdec, hproc]
      rw [if_pos hrt]
    rw [hH]
    exact ⟨leLookup_leInsert _ _ _, rfl, rfl⟩
  · rw [if_neg hrt]
    obtain ⟨bs, hbs⟩ := encode_toErrorResponse_ok err req.requestID
      req.getReplyType hrt
    have hH : emu.HandleRequest cid data =
        ({ emu with lastError :=
            leInsert (leInsert emu.lastError cid (some err)) cid none }, bs,
          none) := by
      simp only [MongoEmulator.HandleRequest, hdec, hproc]
      rw [if_neg hrt]
      simp only [hbs]
    rw [hH]
    exact ⟨leLookup_leInsert _ _ _, hbs, rfl⟩

/-- Witness for C1 at the dummy backend and a concrete OP_INSERT frame
(reply envelope `None`). -/
theorem C1_error_buffering_witness :
    if c1InsReq.getReplyType = .none then
      leLookup ((⟨dummyBackend, []⟩ : MongoEmulator).HandleRequest (ascii "c1")
        c1InsFrame).1.lastError (ascii "c1") = some (some .unsupported) ∧
      ((⟨dummyBackend, []⟩ : MongoEmulator).HandleRequest (ascii "c1")
        c1InsFrame).2.1 = [] ∧
      ((⟨dummyBackend, []⟩ : MongoEmulator).HandleRequest (ascii "c1")
        c1InsFrame).2.2 = none
    else
      leLookup ((⟨dummyBackend, []⟩ : MongoEmulator).HandleRequest (ascii "c1")
        c1InsFrame).1.lastError (ascii "c1") = some none ∧
      Encode (toErrorResponse .unsupported c1InsReq.getReplyType)
        c1InsReq.requestID c1InsReq.getReplyType =
        .ok ((⟨dummyBackend, []⟩ : MongoEmulator).HandleRequest (ascii "c1")
          c1InsFrame).2.1 ∧
      ((⟨dummyBackend, []⟩ : MongoEmulator).HandleRequest (ascii "c1")
        c1InsFrame).2.2 = none :=
  C1_error_buffering ⟨dummyBackend, []⟩ (ascii "c1") c1InsFrame c1InsReq
    emptyResponse .unsupported rfl rfl

/-- Counterexample for C1 as stated: a decodable OP_GET_MORE request
(envelope OpReply) whose processing errors leaves the per-client
`lastError` entry holding `nil` after `HandleRequest` returns — not the
error. -/
theorem C1_error_buffering_counterexample :
    Decode c1GmFrame = .ok c1GmReq ∧
    (MongoEmulator.process ⟨dummyBackend, []⟩ (ascii "c1") c1GmReq).2 =
      some .unsupported ∧
    c1GmReq.getReplyType = .opReply ∧
    leLookup ((⟨dummyBackend, []⟩ : MongoEmulator).HandleRequest (ascii "c1")
      c1GmFrame).1.lastError (ascii "c1") = some none :=
  ⟨rfl, rfl, rfl, rfl⟩

/-! ## Claim C7 -/

/--
Claim C7 describes the intended behavior: after an error on a
`None`-envelope request no bytes are written and the next `getLastError`
from the same client observes the buffered error.  The code buffers the
error (first three conjuncts) but registers no `getLastError` handler and
never reads `lastError`: the follow-up `getLastError` command is answered
with a `command "getLastError": unsupported request` error reply and the
buffered error is discarded (last three conjuncts evaluate the code on
that failing input).
-/
theorem C7_getLastError_never_observes_buffered_error :
    ((⟨dummyBackend, []⟩ : MongoEmulator).HandleRequest (ascii "c1")
      c7InsFrame).2.1 = [] ∧
    ((⟨dummyBackend, []⟩ : MongoEmulator).HandleRequest (ascii "c1")
      c7InsFrame).2.2 = none ∧
    leLookup ((⟨dummyBackend, []⟩ : MongoEmulator).HandleRequest (ascii "c1")
      c7InsFrame).1.lastError (ascii "c1") = some (some .unsupported) ∧
    Encode
        (toErrorResponse
          (.wrap (ascii "command \"" ++ ascii "getLastError" ++ ascii "\"")
            .unsupported) .opReply) 11 .opReply =
      .ok (((⟨dummyBackend, []⟩ : MongoEmulator).HandleRequest (ascii "c1")
        c7InsFrame).1.HandleRequest (ascii "c1") c7GleFrame).2.1 ∧
    (((⟨dummyBackend, []⟩ : MongoEmulator).HandleRequest (ascii "c1")
      c7InsFrame).1.HandleRequest (ascii "c1") c7GleFrame).2.1 ≠ [] ∧
    leLookup (((⟨dummyBackend, []⟩ : MongoEmulator).HandleRequest (ascii "c1")
      c7InsFrame).1.HandleRequest (ascii "c1") c7GleFrame).1.lastError
      (ascii "c1") = some none :=
  ⟨rfl, rfl, rfl, rfl, by decide, rfl⟩

/-! ## Claim C3 -/

/--
Claim C3 describes the intended behavior: an OP_MSG with flag bit 0 set
and a trailing crc32 should decode like the same message without them.
The section loop of `decodeMsgOp` however reads sections until the
payload is exhausted, so it consumes the crc32 bytes as a bogus section
and fails; the post-loop crc32 read can never succeed.  This theorem
evaluates the code at the failing input: the checksummed frame is
rejected while its checksum-free twin decodes fine.
-/
theorem C3_checksum_bit_breaks_decode :
    Decode c3MsgWithCrc = .err false ∧
    Decode c3MsgNoCrc =
      .ok (.command ⟨⟨⟨36, 5, 0, 2013⟩, .command, .opMsg⟩, ⟨[], []⟩,
        ascii "ping", []⟩) :=
  ⟨rfl, rfl⟩

/-! ## cstring, namespace and BSON round-trip lemmas -/

theorem wrap64_eq_self {i : Int} (h1 : -2 ^ 63 ≤ i) (h2 : i < 2 ^ 63) :
    wrap64 i = i := by
  unfold wrap64; omega

theorem decodeCStringAux_spec (s : Bytes) :
    ∀ (rest acc : Bytes) (rem : Int), (∀ b ∈ s, b ≠ 0) →
    (s.length : Int) < rem →
    decodeCStringAux (s ++ 0 :: rest) rem acc = .ok (acc ++ s, rest) := by
  induction s with
  | nil =>
      intro rest acc rem _ hlen
      unfold decodeCStringAux
      rw [if_neg (by simp at hlen; omega)]
      simp
  | cons b t ih =>
      intro rest acc rem hnz hlen
      unfold decodeCStringAux
      rw [if_neg (by simp at hlen; omega)]
      simp only [List.cons_append]
      rw [if_neg (hnz b (by simp))]
      rw [ih rest (acc ++ [b]) (rem - 1) (fun x hx => hnz x (by simp [hx]))
        (by simp at hlen ⊢; omega)]
      simp

theorem decodeCString_spec (s rest : Bytes) (maxLen : Int)
    (hnz : ∀ b ∈ s, b ≠ 0) (hlen : (s.length : Int) < maxLen) :
    decodeCString (s ++ 0 :: rest) maxLen = .ok (s, rest) := by
  unfold decodeCString
  simpa using decodeCStringAux_spec s rest [] maxLen hnz hlen

theorem splitFirstDot_spec (a c : Bytes) (h : ∀ b ∈ a, b ≠ 46) :
    splitFirstDot (a ++ 46 :: c) = some (a, c) := by
  induction a with
  | nil => simp [splitFirstDot]
  | cons b t ih =>
      simp only [List.cons_append, splitFirstDot, List.append_eq]
      rw [if_neg (h b (by simp))]
      rw [ih (fun x hx => h x (by simp [hx]))]
      rfl

theorem decodeNamespacedCollection_spec (db col rest : Bytes) (maxLen : Int)
    (hdb0 : db ≠ []) (hcol0 : col ≠ [])
    (hdbNul : ∀ b ∈ db, b ≠ 0) (hcolNul : ∀ b ∈ col, b ≠ 0)
    (hdbDot : ∀ b ∈ db, b ≠ 46)
    (hlen : ((db.length + 1 + col.length : Nat) : Int) < maxLen) :
    decodeNamespacedCollection (nsBytes db col ++ 0 :: rest) maxLen =
      .ok (⟨db, col⟩, rest) := by
  unfold decodeNamespacedCollection nsBytes
  have hshape : ((db ++ [46] ++ col) ++ 0 :: rest) =
      (db ++ 46 :: col) ++ 0 :: rest := by simp
  rw [hshape, decodeCString_spec (db ++ 46 :: col) rest maxLen
    (by intro x hx
        rcases List.mem_append.mp hx with h1 | h1
        · exact hdbNul x h1
        · rcases List.mem_cons.mp h1 with h2 | h2
          · simp [h2]
          · exact hcolNul x h2)
    (by simp at hlen ⊢; omega), DR.bind_ok]
  simp only [splitFirstDot_spec db col hdbDot]
  rw [if_neg (by simpa using hdb0), if_neg (by simpa using hcol0)]

theorem btype_ne_zero (v : BVal) : btype v ≠ 0 := by
  cases v <;> simp [btype]

theorem splitFirstNul_spec (n rest : Bytes) (h : ∀ b ∈ n, b ≠ 0) :
    splitFirstNul (n ++ 0 :: rest) = some (n, rest) := by
  induction n with
  | nil => simp [splitFirstNul]
  | cons b t ih =>
      simp only [List.cons_append, splitFirstNul, List.append_eq]
      rw [if_neg (h b (by simp))]
      rw [ih (fun x hx => h x (by simp [hx]))]
      rfl

theorem bReadVal_roundtrip (v : BVal) (rest : Bytes) (hok : bvalOk v = true) :
    bReadVal (btype v) (bvalBytes v ++ rest) = some (v, rest) := by
  cases v with
  | vInt i =>
      simp only [bvalOk, decide_eq_true_eq] at hok
      simp only [btype, bvalBytes]
      unfold bReadVal
      rw [if_pos rfl]
      simp only [readI32_i32le, wrap32_eq_self hok.1 hok.2]
  | vInt64 i =>
      simp only [bvalOk, decide_eq_true_eq] at hok
      simp only [btype, bvalBytes]
      unfold bReadVal
      rw [if_neg (by decide), if_pos rfl]
      simp only [readI64_i64le, wrap64_eq_self hok.1 hok.2]
  | vTime t =>
      simp only [bvalOk, decide_eq_true_eq] at hok
      simp only [btype, bvalBytes]
      unfold bReadVal
      rw [if_neg (by decide), if_neg (by decide), if_pos rfl]
      simp only [readI64_i64le, wrap64_eq_self hok.1 hok.2]
  | vBool b =>
      cases b <;> rfl
  | vStr s =>
      simp only [bvalOk, decide_eq_true_eq] at hok
      simp only [btype, bvalBytes]
      unfold bReadVal
      rw [if_neg (by decide), if_neg (by decide), if_neg (by decide),
        if_neg (by decide), if_pos rfl]
      have hshape : (i32le ((s.length : Int) + 1) ++ s ++ [0]) ++ rest =
          i32le ((s.length : Int) + 1) ++ (s ++ 0 :: rest) := by simp
      rw [hshape]
      simp only [readI32_i32le,
        wrap32_eq_self (by omega : -2 ^ 31 ≤ (s.length : Int) + 1) hok]
      rw [if_pos ⟨by omega, by
        simp only [List.length_append, List.length_cons]
        omega⟩]
      have hn : ((s.length : Int) + 1 - 1).toNat = s.length := by omega
      rw [hn, List.drop_left, List.take_left]
      rfl

theorem belems_cons (n : Bytes) (v : BVal) (t : BsonD) :
    belems ((n, v) :: t) = btype v :: (n ++ 0 :: (bvalBytes v ++ belems t)) := by
  simp [belems]

theorem bParseElems_spec (d : BsonD) :
    ∀ fuel : Nat, d.all (fun kv => bnameOk kv.1 && bvalOk kv.2) = true →
    (belems d).length < fuel →
    bParseElems fuel (belems d ++ [0]) = some d := by
  induction d with
  | nil =>
      intro fuel _ hfuel
      match fuel, hfuel with
      | fuel + 1, _ => rfl
  | cons kv t ih =>
      intro fuel hwf hfuel
      obtain ⟨n, v⟩ := kv
      simp only [List.all_cons, Bool.and_eq_true, bnameOk, List.all_eq_true,
        decide_eq_true_eq] at hwf
      rw [belems_cons] at hfuel ⊢
      simp only [List.length_cons, List.length_append] at hfuel
      match fuel, hfuel with
      | fuel + 1, hfuel =>
        show bParseElems (fuel + 1)
          ((btype v :: (n ++ 0 :: (bvalBytes v ++ belems t))) ++ [0]) = _
        simp only [List.cons_append, List.append_assoc, List.cons_append]
        have h1 := splitFirstNul_spec n (bvalBytes v ++ (belems t ++ [0]))
          hwf.1.1
        have h2 := bReadVal_roundtrip v (belems t ++ [0]) hwf.1.2
        have h3 : (t.all fun kv => bnameOk kv.1 && bvalOk kv.2) = true := by
          simp only [List.all_cons, Bool.and_eq_true, bnameOk,
            List.all_eq_true, decide_eq_true_eq]
          exact hwf.2
        have h4 := ih fuel h3 (by omega)
        unfold bParseElems
        rw [if_neg (btype_ne_zero v)]
        simp only [h1, h2, h4]


theorem bsonMarshalD_length (d : BsonD) :
    (bsonMarshalD d).length = (belems d).length + 5 := by
  simp [bsonMarshalD, u32le, List.length_append]

theorem bsonUnmarshal_marshal (d : BsonD) (hok : docOk d = true) :
    bsonUnmarshal (bsonMarshalD d) = some d := by
  simp only [docOk, Bool.and_eq_true, decide_eq_true_eq] at hok
  unfold bsonUnmarshal bsonMarshalD
  have hshape : u32le ((belems d).length + 5) ++ belems d ++ [0] =
      u32le ((belems d).length + 5) ++ (belems d ++ [0]) := by simp
  rw [hshape]
  simp only [readI32_u32le,
    wrap32_ofNat_eq_self (by exact_mod_cast hok.2 : (((belems d).length + 5 : Nat) : Int) < 2 ^ 31)]
  rw [if_pos (by
    simp only [List.length_append, List.length_cons, List.length_nil, u32le,
      List.length_cons]
    push_cast
    omega)]
  exact bParseElems_spec d ((belems d ++ [0]).length + 1) hok.1
    (by simp only [List.length_append, List.length_cons, List.length_nil]; omega)

theorem decodeBSONDocument_marshal (d : BsonD) (rest : Bytes)
    (hok : docOk d = true) :
    decodeBSONDocument (bsonMarshalD d ++ rest) = .ok (d, rest) := by
  have hok' := hok
  simp only [docOk, Bool.and_eq_true, decide_eq_true_eq] at hok'
  unfold decodeBSONDocument
  have hshape : bsonMarshalD d ++ rest =
      u32le ((belems d).length + 5) ++ (belems d ++ (0 :: rest)) := by
    simp [bsonMarshalD]
  rw [hshape]
  simp only [readI32_u32le, DR.bind_ok,
    wrap32_ofNat_eq_self (by exact_mod_cast hok'.2 :
      (((belems d).length + 5 : Nat) : Int) < 2 ^ 31)]
  rw [if_neg (by push_cast; omega)]
  have hraw : ((((belems d).length + 5 : Nat) : Int) - 4).toNat =
      (belems d).length + 1 := by omega
  rw [hraw]
  rw [if_neg (by omega)]
  rw [if_neg (by simp only [List.length_append, List.length_cons]; omega)]
  rw [if_neg (by simp only [List.length_append, List.length_cons]; omega)]
  have htake : (belems d ++ (0 :: rest)).take ((belems d).length + 1) =
      belems d ++ [0] := by
    rw [show (belems d).length + 1 = (belems d).length + [0].length by simp]
    rw [List.take_append]
    simp
  have hdrop : (belems d ++ (0 :: rest)).drop ((belems d).length + 1) = rest := by
    rw [show (belems d).length + 1 = (belems d).length + [0].length by simp]
    rw [List.drop_append]
    simp
  have htonat : (((belems d).length + 5 : Nat) : Int).toNat =
      (belems d).length + 5 := by omega
  rw [htake, hdrop, htonat]
  rw [show u32le ((belems d).length + 5) ++ (belems d ++ [0]) =
    bsonMarshalD d by simp [bsonMarshalD]]
  rw [bsonUnmarshal_marshal d hok]

/-! ## Command sub-decoder result types -/

theorem decodeInsertCommand_type (hdr : RPCHeader) (nsCol : NamespacedCollection)
    (args : BsonM) (rt : ReplyType) (req : Request)
    (h : decodeInsertCommand hdr nsCol args rt = .ok req) :
    req.getType = .insert := by
  unfold decodeInsertCommand at h
  split at h
  · rw [← DR.ok.inj h]; rfl
  · exact DR.noConfusion h

theorem decodeUpdateCommand_type (hdr : RPCHeader) (nsCol : NamespacedCollection)
    (args : BsonM) (rt : ReplyType) (req : Request)
    (h : decodeUpdateCommand hdr nsCol args rt = .ok req) :
    req.getType = .update := by
  unfold decodeUpdateCommand at h
  split at h
  · rw [← DR.ok.inj h]; rfl
  · exact DR.noConfusion h

theorem decodeDeleteCommand_type (hdr : RPCHeader) (nsCol : NamespacedCollection)
    (args : BsonM) (rt : ReplyType) (req : Request)
    (h : decodeDeleteCommand hdr nsCol args rt = .ok req) :
    req.getType = .delete := by
  unfold decodeDeleteCommand at h
  split at h
  · rw [← DR.ok.inj h]; rfl
  · exact DR.noConfusion h

theorem decodeFindCommand_type (hdr : RPCHeader) (nsCol : NamespacedCollection)
    (args : BsonM) (rt : ReplyType) (req : Request)
    (h : decodeFindCommand hdr nsCol args rt = .ok req) :
    req.getType = .query := by
  unfold decodeFindCommand at h
  rw [← DR.ok.inj h]; rfl

theorem decodeFindAndModifyCommand_type (hdr : RPCHeader)
    (nsCol : NamespacedCollection) (args : BsonM) (rt : ReplyType)
    (req : Request)
    (h : decodeFindAndModifyCommand hdr nsCol args rt = .ok req) :
    req.getType = .findAndUpdate ∨ req.getType = .findAndDelete := by
  unfold decodeFindAndModifyCommand at h
  split at h
  · right; rw [← DR.ok.inj h]; rfl
  · exact DR.noConfusion h

/-! ## Decode of a built `$cmd` OP_QUERY frame -/

theorem decodeBSONDocument_nil : decodeBSONDocument [] = .err true := rfl

theorem mkQueryFrame_length (rid : Int) (flags : Nat) (ns : Bytes)
    (skip ret : Int) (qdoc : BsonD) :
    (mkQueryFrame rid flags ns skip ret qdoc).length =
      16 + (4 + (ns.length + (1 + (4 + (4 + (bsonMarshalD qdoc).length))))) := by
  simp only [mkQueryFrame, mkFrame, List.length_append, List.length_cons,
    i32le_length, u32le_length]
  omega

/-- `decodeQueryOp` on a built `$cmd` payload: the command dispatch in
closed form. -/
theorem decodeQueryOp_cmd_payload (hdr : RPCHeader) (flags : Nat)
    (skip ret : Int) (db cmdName : Bytes) (v0 : BVal) (args : BsonD)
    (hdb0 : db ≠ []) (hdbNul : ∀ b ∈ db, b ≠ 0) (hdbDot : ∀ b ∈ db, b ≠ 46)
    (hdoc : docOk ((cmdName, v0) :: args) = true)
    (hmax : ((db.length + 1 + 4 : Nat) : Int) < hdr.PayloadLength - 4) :
    decodeQueryOp hdr (u32le flags ++ (nsBytes db (ascii "$cmd") ++
        (0 :: (i32le skip ++ (i32le ret ++
          bsonMarshalD ((cmdName, v0) :: args)))))) =
      (let nsCol : NamespacedCollection :=
        match v0 with
        | .vStr c => ⟨db, c⟩
        | _ => ⟨db, ascii "$cmd"⟩
       let cmdArgs := mErase (bsonDMap ((cmdName, v0) :: args)) cmdName
       match cmdDecoderLookup cmdName with
       | some dec => dec hdr nsCol cmdArgs .opReply
       | none => .ok (.command ⟨⟨hdr, .command, .opReply⟩, nsCol, cmdName,
          cmdArgs⟩)) := by
  unfold decodeQueryOp
  rw [readU32_u32le, DR.bind_ok]
  dsimp only []
  rw [decodeNamespacedCollection_spec db (ascii "$cmd") _ _ hdb0 (by decide)
    hdbNul (by decide) hdbDot (by simpa [ascii] using hmax), DR.bind_ok]
  dsimp only []
  rw [readI32_i32le, DR.bind_ok]
  dsimp only []
  rw [readI32_i32le, DR.bind_ok]
  dsimp only []
  rw [show bsonMarshalD ((cmdName, v0) :: args) =
    bsonMarshalD ((cmdName, v0) :: args) ++ [] by simp]
  rw [decodeBSONDocument_marshal _ _ hdoc, DR.bind_ok]
  dsimp only [decodeBSONDocument_nil]
  rw [DR.bind_ok]
  dsimp only []
  rw [if_neg (by exact fun h => h rfl)]
  cases v0 <;> rfl

theorem mkFrame_length (rid rto opc : Int) (p : Bytes) :
    (mkFrame rid rto opc p).length = 16 + p.length := by
  simp only [mkFrame, List.length_append, i32le_length]

/-- `Decode` dispatches opcode 2004 to `decodeQueryOp`. -/
theorem Decode_mkFrame_2004 (rid : Int) (pay : Bytes)
    (hsz : (16 : Int) + (pay.length : Int) < 2 ^ 31) :
    Decode (mkFrame rid 0 2004 pay) =
      decodeQueryOp ⟨16 + (pay.length : Int), wrap32 rid, 0, 2004⟩ pay := by
  have hz : wrap32 (0 : Int) = 0 := wrap32_eq_self (by norm_num) (by norm_num)
  have hop : wrap32 (2004 : Int) = 2004 :=
    wrap32_eq_self (by norm_num) (by norm_num)
  have hml : wrap32 ((16 : Int) + (pay.length : Int)) =
      16 + (pay.length : Int) := wrap32_eq_self (by omega) (by omega)
  unfold Decode
  rw [decodeHeader_mkFrame, DR.bind_ok]
  dsimp only []
  rw [hz, hop, hml]
  rw [if_neg (by norm_num), if_neg (by norm_num), if_pos rfl]

/-! ## Claim C4 -/

/--
Claim C4, as amended: for every OP_QUERY frame whose namespace's
collection component — the part after the first dot of the full
collection namespace cstring — is exactly `$cmd` and whose query
document's first field name is one of insert, update, delete, find,
findAndModify, a successfully decoded request has the corresponding
semantic type (Insert, Update, Delete, Query, FindAndUpdate or
FindAndDelete) and never type Command.  (The original claim's "ends in
`.$cmd`" is refuted by the counterexample: the decoder compares the
collection component, not a suffix.)
-/
theorem C4_dollarCmd_semantic_types (rid skip ret : Int) (flags : Nat)
    (db cmdName : Bytes) (v0 : BVal) (args : BsonD) (req : Request)
    (hdb0 : db ≠ []) (hdbNul : ∀ b ∈ db, b ≠ 0) (hdbDot : ∀ b ∈ db, b ≠ 46)
    (hdoc : docOk ((cmdName, v0) :: args) = true)
    (hsz : ((mkQueryFrame rid flags (nsBytes db (ascii "$cmd")) skip ret
      ((cmdName, v0) :: args)).length : Int) < 2 ^ 31)
    (hreg : isRegisteredCmd cmdName = true)
    (hdec : Decode (mkQueryFrame rid flags (nsBytes db (ascii "$cmd")) skip
      ret ((cmdName, v0) :: args)) = .ok req) :
    cmdSemanticType cmdName req.getType ∧ req.getType ≠ .command := by
  set pay := u32le flags ++ (nsBytes db (ascii "$cmd") ++
    (0 :: (i32le skip ++ (i32le ret ++
      bsonMarshalD ((cmdName, v0) :: args))))) with hpay
  have hframe : mkQueryFrame rid flags (nsBytes db (ascii "$cmd")) skip ret
      ((cmdName, v0) :: args) = mkFrame rid 0 2004 pay := rfl
  rw [hframe] at hdec hsz
  rw [mkFrame_length] at hsz
  push_cast at hsz
  rw [Decode_mkFrame_2004 rid pay (by omega)] at hdec
  have hps : pay.length = 4 + ((db.length + 5) +
      (1 + (4 + (4 + (bsonMarshalD ((cmdName, v0) :: args)).length)))) := by
    have hns : (nsBytes db (ascii "$cmd")).length = db.length + 5 := by
      simp [nsBytes, ascii, List.length_append]
    simp only [hpay, List.length_append, List.length_cons, u32le_length,
      i32le_length, hns]
    omega
  have hmax : ((db.length + 1 + 4 : Nat) : Int) <
      (⟨16 + (pay.length : Int), wrap32 rid, 0, 2004⟩ :
        RPCHeader).PayloadLength - 4 := by
    rw [RPCHeader.PayloadLength]
    dsimp only []
    rw [hps]
    push_cast
    omega
  rw [decodeQueryOp_cmd_payload _ flags skip ret db cmdName v0 args hdb0
    hdbNul hdbDot hdoc hmax] at hdec
  simp only [isRegisteredCmd, Bool.or_eq_true, decide_eq_true_eq] at hreg
  rcases hreg with ((((h | h) | h) | h) | h) <;> subst h
  · rw [show cmdDecoderLookup (ascii "insert") = some decodeInsertCommand
      from rfl] at hdec
    dsimp only [] at hdec
    have hty := decodeInsertCommand_type _ _ _ _ _ hdec
    refine ⟨⟨fun _ => hty, fun hc => absurd hc (by decide),
      fun hc => absurd hc (by decide), fun hc => absurd hc (by decide),
      fun hc => absurd hc (by decide)⟩, ?_⟩
    rw [hty]
    decide
  · rw [show cmdDecoderLookup (ascii "update") = some decodeUpdateCommand
      from rfl] at hdec
    dsimp only [] at hdec
    have hty := decodeUpdateCommand_type _ _ _ _ _ hdec
    refine ⟨⟨fun hc => absurd hc (by decide), fun _ => hty,
      fun hc => absurd hc (by decide), fun hc => absurd hc (by decide),
      fun hc => absurd hc (by decide)⟩, ?_⟩
    rw [hty]
    decide
  · rw [show cmdDecoderLookup (ascii "delete") = some decodeDeleteCommand
      from rfl] at hdec
    dsimp only [] at hdec
    have hty := decodeDeleteCommand_type _ _ _ _ _ hdec
    refine ⟨⟨fun hc => absurd hc (by decide), fun hc => absurd hc (by decide),
      fun _ => hty, fun hc => absurd hc (by decide),
      fun hc => absurd hc (by decide)⟩, ?_⟩
    rw [hty]
    decide
  · rw [show cmdDecoderLookup (ascii "find") = some decodeFindCommand
      from rfl] at hdec
    dsimp only [] at hdec
    have hty := decodeFindCommand_type _ _ _ _ _ hdec
    refine ⟨⟨fun hc => absurd hc (by decide), fun hc => absurd hc (by decide),
      fun hc => absurd hc (by decide), fun _ => hty,
      fun hc => absurd hc (by decide)⟩, ?_⟩
    rw [hty]
    decide
  · rw [show cmdDecoderLookup (ascii "findAndModify") =
      some decodeFindAndModifyCommand from rfl] at hdec
    dsimp only [] at hdec
    have hty := decodeFindAndModifyCommand_type _ _ _ _ _ hdec
    refine ⟨⟨fun hc => absurd hc (by decide), fun hc => absurd hc (by decide),
      fun hc => absurd hc (by decide), fun hc => absurd hc (by decide),
      fun _ => hty⟩, ?_⟩
    rcases hty with hty | hty <;> rw [hty] <;> decide

/-- C4 witness: a concrete `find` command against `a.$cmd` decodes as a
Query request (never a Command). -/
theorem C4_dollarCmd_semantic_types_witness :
    cmdSemanticType (ascii "find")
        (Request.query ⟨⟨⟨52, 3, 0, 2004⟩, .query, .opReply⟩,
          ⟨ascii "a", ascii "c"⟩, 0, 0, 0, [], [], []⟩).getType ∧
      (Request.query ⟨⟨⟨52, 3, 0, 2004⟩, .query, .opReply⟩,
          ⟨ascii "a", ascii "c"⟩, 0, 0, 0, [], [], []⟩).getType ≠
        .command :=
  C4_dollarCmd_semantic_types 3 0 (-1) 0 (ascii "a") (ascii "find")
    (.vStr (ascii "c")) [] _ (by decide) (by decide) (by decide) (by decide)
    (by decide) (by decide) (by rfl)

/-- C4 counterexample to the claim as stated: the namespace cstring
`a.b.$cmd` ends in `.$cmd` and the query's first field name is `insert`,
yet the decoded request has type Query (the decoder compares the
collection component after the FIRST dot against `$cmd`, which here is
`b.$cmd`, so no command dispatch happens), not the claimed Insert. -/
theorem C4_dollarCmd_semantic_types_counterexample :
    List.isSuffixOf (ascii ".$cmd")
        (nsBytes (ascii "a") (ascii "b.$cmd")) = true ∧
      decodedType (Decode c4SuffixFrame) = some .query ∧
      ¬ cmdSemanticType (ascii "insert") .query :=
  ⟨by decide, rfl, fun h => absurd (h.1 rfl) (by decide)⟩

/-! ## Claim C5 -/

theorem readU8_cons (b : UInt8) (rest : Bytes) :
    readU8 (b :: rest) = .ok (b, rest) := rfl

theorem length_le_flatten_marshal (ds : List BsonD) :
    ds.length ≤ ((ds.map bsonMarshalD).flatten).length := by
  induction ds with
  | nil => simp
  | cons d t ih =>
      simp only [List.map_cons, List.flatten_cons, List.length_append,
        List.length_cons, bsonMarshalD_length]
      omega

theorem msgSeqDocsLoop_docs (ds : List BsonD) :
    ∀ (fuel : Nat) (acc : List BsonD), ds.all docOk = true →
      ds.length < fuel →
      msgSeqDocsLoop fuel ((ds.map bsonMarshalD).flatten) acc =
        .ok (acc ++ ds) := by
  induction ds with
  | nil =>
      intro fuel acc _ hfuel
      cases fuel with
      | zero => omega
      | succ n => simp [msgSeqDocsLoop, decodeBSONDocument_nil]
  | cons d t ih =>
      intro fuel acc hok hfuel
      simp only [List.all_cons, Bool.and_eq_true] at hok
      cases fuel with
      | zero => simp at hfuel
      | succ n =>
          simp only [List.map_cons, List.flatten_cons]
          unfold msgSeqDocsLoop
          rw [decodeBSONDocument_marshal d _ hok.1]
          dsimp only []
          rw [ih n (acc ++ [d]) hok.2
            (by simp only [List.length_cons] at hfuel; omega)]
          simp

theorem builtSeqs_length (ss : List MsgSection) :
    (builtSeqs ss).length = countSeq ss := by
  induction ss with
  | nil => rfl
  | cons s t ih =>
      simp only [builtSeqs, countSeq] at ih ⊢
      cases s <;> simp [List.filterMap_cons, List.countP_cons, ih]

theorem builtSeqs_dotFree (ss : List MsgSection) :
    seqPathsDotFree ss =
      (builtSeqs ss).all fun sec => ! sec.path.contains 46 := by
  induction ss with
  | nil => rfl
  | cons s t ih =>
      cases s with
      | body d =>
          simp only [seqPathsDotFree, builtSeqs, List.filterMap_cons,
            List.all_cons, Bool.true_and] at ih ⊢
          exact ih
      | seq p ds =>
          simp only [seqPathsDotFree, builtSeqs, List.filterMap_cons,
            List.all_cons] at ih ⊢
          rw [ih]

theorem lastBody_foldl_of_no_body (ss : List MsgSection) :
    ∀ b : BsonD, countBody ss = 0 →
      ss.foldl (fun acc s => match s with | .body d => d | _ => acc) b = b := by
  induction ss with
  | nil => intro b _; rfl
  | cons s t ih =>
      intro b h
      cases s with
      | body d => simp [countBody, List.countP_cons] at h
      | seq p ds =>
          rw [List.foldl_cons]
          dsimp only []
          exact ih b (by simpa [countBody, List.countP_cons] using h)

theorem lastBody_foldl_ne_nil (ss : List MsgSection) :
    ∀ b : BsonD, ss.all msgSectionOk = true → 0 < countBody ss →
      ss.foldl (fun acc s => match s with | .body d => d | _ => acc) b ≠
        [] := by
  induction ss with
  | nil => intro b _ h; simp [countBody] at h
  | cons s t ih =>
      intro b hwf hc
      simp only [List.all_cons, Bool.and_eq_true] at hwf
      cases s with
      | body d =>
          rw [List.foldl_cons]
          dsimp only []
          by_cases h0 : countBody t = 0
          · rw [lastBody_foldl_of_no_body t d h0]
            have hd := hwf.1
            simp only [msgSectionOk, Bool.and_eq_true, decide_eq_true_eq]
              at hd
            exact hd.2
          · exact ih d hwf.2 (Nat.pos_of_ne_zero h0)
      | seq p ds =>
          rw [List.foldl_cons]
          dsimp only []
          refine ih b hwf.2 ?_
          simpa [countBody, List.countP_cons] using hc

theorem length_le_flatten_sections (ss : List MsgSection) :
    ss.length ≤ ((ss.map msgSectionBytes).flatten).length := by
  induction ss with
  | nil => simp
  | cons s t ih =>
      simp only [List.map_cons, List.flatten_cons, List.length_append]
      cases s <;> simp only [msgSectionBytes, List.length_cons] <;> omega

theorem cmdDecoderLookup_none (cmd : Bytes)
    (h : isRegisteredCmd cmd = false) : cmdDecoderLookup cmd = none := by
  simp only [isRegisteredCmd, Bool.or_eq_false_iff,
    decide_eq_false_iff_not] at h
  simp [cmdDecoderLookup, h.1.1.1.1, h.1.1.1.2, h.1.1.2, h.1.2, h.2]

theorem msgSectionsLoop_built (ss : List MsgSection) :
    ∀ (fuel : Nat) (body : BsonD) (seqs : List DocSeqSection),
      ss.all msgSectionOk = true → ss.length < fuel →
      msgSectionsLoop fuel ((ss.map msgSectionBytes).flatten) body seqs =
        .ok (ss.foldl (fun acc s => match s with | .body d => d | _ => acc)
          body, seqs ++ builtSeqs ss) := by
  induction ss with
  | nil =>
      intro fuel body seqs _ hfuel
      cases fuel with
      | zero => omega
      | succ n => simp [msgSectionsLoop, readU8, builtSeqs]
  | cons s t ih =>
      intro fuel body seqs hwf hfuel
      simp only [List.all_cons, Bool.and_eq_true] at hwf
      cases fuel with
      | zero => simp at hfuel
      | succ n =>
          simp only [List.map_cons, List.flatten_cons]
          cases s with
          | body d =>
              have hd := hwf.1
              simp only [msgSectionOk, Bool.and_eq_true, decide_eq_true_eq]
                at hd
              simp only [msgSectionBytes, List.cons_append]
              unfold msgSectionsLoop
              rw [readU8_cons]
              dsimp only []
              rw [if_pos rfl]
              rw [decodeBSONDocument_marshal d _ hd.1]
              dsimp only []
              rw [if_neg hd.2]
              rw [ih n d seqs hwf.2
                (by simp only [List.length_cons] at hfuel; omega)]
              simp [builtSeqs, List.filterMap_cons]
          | seq p ds =>
              have hs := hwf.1
              simp only [msgSectionOk, Bool.and_eq_true, decide_eq_true_eq]
                at hs
              set C : Bytes := p ++ [0] ++ (ds.map bsonMarshalD).flatten
                with hC
              have hbytes : msgSectionBytes (MsgSection.seq p ds) ++
                  (t.map msgSectionBytes).flatten =
                  1 :: (u32le (C.length + 4) ++
                    (C ++ (t.map msgSectionBytes).flatten)) := by
                simp [msgSectionBytes, hC]
              rw [hbytes]
              unfold msgSectionsLoop
              rw [readU8_cons]
              dsimp only []
              rw [if_neg (by decide), if_pos rfl]
              rw [readU32_u32le]
              have hClen : C.length =
                  p.length + 1 + ((ds.map bsonMarshalD).flatten).length := by
                simp [hC]
                omega
              have hX : (C.length + 4) % 2 ^ 32 = C.length + 4 := by
                refine Nat.mod_eq_of_lt ?_
                have h2 := hs.2
                rw [hClen]
                omega
              rw [hX]
              dsimp only []
              rw [if_pos (by omega)]
              rw [Nat.add_sub_cancel]
              rw [List.take_left, List.drop_left]
              rw [show C = p ++ 0 :: (ds.map bsonMarshalD).flatten from
                by simp [hC]]
              have hp : ∀ b ∈ p, b ≠ 0 := by
                have := hs.1.1
                simpa [bnameOk, List.all_eq_true] using this
              rw [decodeCString_spec p ((ds.map bsonMarshalD).flatten) _ hp
                (by
                  simp only [List.length_append, List.length_cons]
                  push_cast
                  omega)]
              dsimp only []
              rw [msgSeqDocsLoop_docs ds
                (((ds.map bsonMarshalD).flatten).length + 1) [] hs.1.2
                (by have := length_le_flatten_marshal ds; omega)]
              dsimp only []
              rw [List.nil_append]
              rw [ih n body (seqs ++ [DocSeqSection.mk p ds]) hwf.2
                (by simp only [List.length_cons] at hfuel; omega)]
              simp [builtSeqs, List.filterMap_cons]

/-- `Decode` dispatches opcode 2013 to `decodeMsgOp`. -/
theorem Decode_mkFrame_2013 (rid : Int) (pay : Bytes)
    (hsz : (16 : Int) + (pay.length : Int) < 2 ^ 31) :
    Decode (mkFrame rid 0 2013 pay) =
      decodeMsgOp ⟨16 + (pay.length : Int), wrap32 rid, 0, 2013⟩ pay := by
  have hz : wrap32 (0 : Int) = 0 := wrap32_eq_self (by norm_num) (by norm_num)
  have hop : wrap32 (2013 : Int) = 2013 :=
    wrap32_eq_self (by norm_num) (by norm_num)
  have hml : wrap32 ((16 : Int) + (pay.length : Int)) =
      16 + (pay.length : Int) := wrap32_eq_self (by omega) (by omega)
  unfold Decode
  rw [decodeHeader_mkFrame, DR.bind_ok]
  dsimp only []
  rw [hz, hop, hml]
  rw [if_neg (by norm_num), if_neg (by norm_num), if_neg (by norm_num),
    if_neg (by norm_num), if_neg (by norm_num), if_neg (by norm_num),
    if_pos rfl]

theorem mkMsgFrame_length (rid : Int) (fb : Nat) (ss : List MsgSection)
    (extra : Bytes) :
    (mkMsgFrame rid fb ss extra).length =
      16 + (4 + (((ss.map msgSectionBytes).flatten).length +
        extra.length)) := by
  simp only [mkMsgFrame, mkFrame_length, List.length_append, u32le_length]

/--
Claim C5, as amended: for every checksum-free OP_MSG frame built from
wellformed sections whose effective command name is not in the
`cmdDecoder` table, decoding succeeds if and only if the frame contains
AT LEAST one body (kind 0) section — when several are present the last
one silently wins, which refutes the claimed "exactly one" rejection —
and at most one document-sequence (kind 1) section whose path cstring
contains no `.`; zero body sections, two or more document sequences, or
a dotted path are rejected with a decode error.
-/
theorem C5_msg_section_constraints (rid : Int) (ss : List MsgSection)
    (hwf : ss.all msgSectionOk = true)
    (hreg : isRegisteredCmd (bdHeadName (lastBodyDoc ss)) = false)
    (hsz : ((mkMsgFrame rid 0 ss []).length : Int) < 2 ^ 31) :
    (Decode (mkMsgFrame rid 0 ss [])).isOk = true ↔
      (1 ≤ countBody ss ∧ countSeq ss ≤ 1 ∧
        seqPathsDotFree ss = true) := by
  rw [mkMsgFrame_length] at hsz
  push_cast at hsz
  have hD : Decode (mkMsgFrame rid 0 ss []) =
      decodeMsgOp ⟨16 + (((u32le 0 ++ ((ss.map msgSectionBytes).flatten ++
          ([] : Bytes))).length : Nat) : Int), wrap32 rid, 0, 2013⟩
        (u32le 0 ++ ((ss.map msgSectionBytes).flatten ++ ([] : Bytes))) := by
    rw [show mkMsgFrame rid 0 ss [] = mkFrame rid 0 2013
      (u32le 0 ++ ((ss.map msgSectionBytes).flatten ++ ([] : Bytes)))
      from rfl]
    exact Decode_mkFrame_2013 rid _ (by
      simp only [List.length_append, u32le_length, List.length_nil]
      push_cast
      omega)
  rw [hD]
  rw [List.append_nil]
  unfold decodeMsgOp
  rw [readU32_u32le, DR.bind_ok]
  dsimp only []
  rw [msgSectionsLoop_built ss
    (((ss.map msgSectionBytes).flatten).length + 1) [] [] hwf
    (by have := length_le_flatten_sections ss; omega), DR.bind_ok]
  dsimp only []
  rw [Nat.zero_mod]
  rw [if_neg (by decide), DR.bind_ok]
  rw [show ss.foldl
    (fun acc s => match s with | MsgSection.body d => d | _ => acc) [] =
    lastBodyDoc ss from rfl]
  rw [List.nil_append]
  have hlast : lastBodyDoc ss =
      ss.foldl (fun acc s => match s with | MsgSection.body d => d | _ => acc)
        [] := rfl
  by_cases hb : countBody ss = 0
  · rw [if_pos (by rw [hlast]; exact lastBody_foldl_of_no_body ss [] hb)]
    simp [hb]
  · have hbpos : 0 < countBody ss := Nat.pos_of_ne_zero hb
    have hne : lastBodyDoc ss ≠ [] := by
      rw [hlast]; exact lastBody_foldl_ne_nil ss [] hwf hbpos
    rw [if_neg hne]
    by_cases h2 : (builtSeqs ss).length > 1
    · rw [if_pos h2]
      rw [builtSeqs_length] at h2
      simp only [DR.isOk_err]
      constructor
      · intro h; exact absurd h (by simp)
      · rintro ⟨_, hle, _⟩; exact absurd hle (by omega)
    · rw [if_neg h2]
      obtain ⟨⟨cmdName, v0⟩, tl, hbd⟩ := List.exists_cons_of_ne_nil hne
      rw [hbd] at hreg
      simp only [bdHeadName] at hreg
      rw [hbd]
      dsimp only []
      simp only [cmdDecoderLookup_none cmdName hreg]
      rcases hq : builtSeqs ss with _ | ⟨sec, rest⟩
      · dsimp only []
        rw [DR.bind_ok]
        simp only [DR.isOk_ok, true_iff]
        refine ⟨hbpos, ?_, ?_⟩
        · rw [← builtSeqs_length, hq]; simp
        · rw [builtSeqs_dotFree, hq]; rfl
      · cases rest with
        | nil =>
            dsimp only []
            by_cases hdot : sec.path.contains 46
            · rw [if_pos hdot, DR.bind_err]
              simp only [DR.isOk_err]
              constructor
              · intro h; exact absurd h (by simp)
              · rintro ⟨_, _, hdf⟩
                rw [builtSeqs_dotFree, hq] at hdf
                simp at hdf hdot
                exact absurd hdot hdf
            · rw [if_neg hdot, DR.bind_ok]
              simp only [DR.isOk_ok, true_iff]
              refine ⟨hbpos, ?_, ?_⟩
              · rw [← builtSeqs_length, hq]; simp
              · rw [builtSeqs_dotFree, hq]
                simp only [List.all_cons, List.all_nil, Bool.and_true]
                simpa using hdot
        | cons sec2 rest2 =>
            rw [hq] at h2
            simp at h2

/-- C5 witness: a single-body `ping` OP_MSG decodes successfully, by the
main theorem instantiated at a concrete section list. -/
theorem C5_msg_section_constraints_witness :
    (Decode (mkMsgFrame 9 0 [.body [(ascii "ping", .vInt 1)]] [])).isOk =
        true ↔
      (1 ≤ countBody [MsgSection.body [(ascii "ping", BVal.vInt 1)]] ∧
        countSeq [MsgSection.body [(ascii "ping", BVal.vInt 1)]] ≤ 1 ∧
        seqPathsDotFree [MsgSection.body [(ascii "ping", BVal.vInt 1)]] =
          true) :=
  C5_msg_section_constraints 9 [.body [(ascii "ping", .vInt 1)]]
    (by decide) (by decide) (by decide)

/-- C5 counterexample to the claim as stated: an OP_MSG frame carrying
TWO body (kind 0) sections decodes successfully — the decoder keeps the
last body instead of rejecting the frame. -/
theorem C5_msg_section_constraints_counterexample :
    countBody [MsgSection.body [(ascii "x", BVal.vInt 1)],
        MsgSection.body [(ascii "y", BVal.vInt 2)]] = 2 ∧
      (Decode c5TwoBodyFrame).isOk = true :=
  ⟨rfl, rfl⟩

end Mongolite